import Mathlib

/-
Verification of the ResumeForge resume-rewrite engine and quality scorer.

The Python sources (src/resume_metrics.py, src/resume_optimizer.py,
src/keyword_generator.py) are shallowly embedded below.  Text is modelled
as lists of characters; Python float arithmetic on the scores is modelled
with exact rationals; Python `round(x, 1)` is modelled by rounding to the
nearest tenth.  The regular expressions used by the sources are simple
enough (literal runs, digit runs, single-character classes, optional
single characters, word boundaries) that each is embedded as an explicit
matching function with identical semantics on the strings involved.
The external generation collaborator is modelled as an explicit outcome
parameter (it either raises or returns a text), mirroring the fact that
the code performs exactly one opaque call per optimization.
-/

/-- Characters of a document; Python `str` values are modelled as `List Char`. -/
abbrev Str := List Char

/-- Backslash character (written via its code so that embedded LaTeX literals stay readable). -/
def bslash : Char := Char.ofNat 92

/-- Opening curly brace character. -/
def braceL : Char := Char.ofNat 123

/-- Closing curly brace character. -/
def braceR : Char := Char.ofNat 125

/-- ASCII lower-casing, the effect of Python `str.lower` on the ASCII documents involved. -/
def lowerL (s : Str) : Str := s.map Char.toLower

/-- Decimal digit test, Python regex `\d` on ASCII text. -/
def isDigitC (c : Char) : Bool := '0' ≤ c ∧ c ≤ '9'

/-- Word-character test, Python regex `\w` on ASCII text. -/
def isWordC (c : Char) : Bool :=
  ('a' ≤ c ∧ c ≤ 'z') ∨ ('A' ≤ c ∧ c ≤ 'Z') ∨ isDigitC c ∨ c = '_'

/-- Whitespace test, Python `str.strip` / regex `\s` on ASCII text. -/
def isSpaceC (c : Char) : Bool :=
  c = ' ' ∨ c = Char.ofNat 9 ∨ c = Char.ofNat 10 ∨ c = Char.ofNat 13 ∨
  c = Char.ofNat 11 ∨ c = Char.ofNat 12

/-- Lower-case ASCII letter test, regex class `[a-z]`. -/
def isLowerAlpha (c : Char) : Bool := 'a' ≤ c ∧ c ≤ 'z'

/-- Upper-case ASCII letter test, regex class `[A-Z]`. -/
def isUpperAlpha (c : Char) : Bool := 'A' ≤ c ∧ c ≤ 'Z'

/-- Remove leading whitespace. -/
def lstripL (s : Str) : Str := s.dropWhile (fun c => isSpaceC c)

/-- Remove trailing whitespace. -/
def rstripL (s : Str) : Str := (lstripL s.reverse).reverse

/-- Python `str.strip`. -/
def stripL (s : Str) : Str := rstripL (lstripL s)

/-- Prefix test on character lists. -/
def startsW : Str → Str → Bool
  | [], _ => true
  | _ :: _, [] => false
  | p :: ps, c :: cs => p = c ∧ startsW ps cs

/-- Python substring containment `needle in haystack`. -/
def containsSub (hay needle : Str) : Bool :=
  match hay with
  | [] => needle.isEmpty
  | _ :: rest => startsW needle hay ∨ containsSub rest needle

/-- Worker for `countSub`, structurally recursive on a fuel bound. -/
def countSubAux (fuel : ℕ) (hay needle : Str) : ℕ :=
  match fuel, hay with
  | 0, _ => 0
  | _, [] => 0
  | fuel + 1, _ :: rest =>
    if startsW needle hay ∧ ¬ needle.isEmpty then
      1 + countSubAux fuel (hay.drop needle.length) needle
    else
      countSubAux fuel rest needle

/-- Python `str.count`: number of non-overlapping occurrences, scanning left to right. -/
def countSub (hay needle : Str) : ℕ := countSubAux (hay.length + 1) hay needle

/-- Worker for `splitOnSub`, structurally recursive on a fuel bound. -/
def splitOnSubAux (fuel : ℕ) (hay sep : Str) : List Str :=
  match fuel, hay with
  | 0, _ => [hay]
  | _, [] => [[]]
  | fuel + 1, c :: rest =>
    if startsW sep hay ∧ ¬ sep.isEmpty then
      [] :: splitOnSubAux fuel (hay.drop sep.length) sep
    else
      match splitOnSubAux fuel rest sep with
      | [] => [[c]]
      | h :: t => (c :: h) :: t

/-- Python `str.split(sep)` for a non-empty separator (used with the bullet macro). -/
def splitOnSub (hay sep : Str) : List Str := splitOnSubAux (hay.length + 1) hay sep

/-- Worker for `digitRuns`, structurally recursive on a fuel bound. -/
def digitRunsAux (fuel : ℕ) (s : Str) : List Str :=
  match fuel, s with
  | 0, _ => []
  | _, [] => []
  | fuel + 1, c :: rest =>
    if isDigitC c then
      ((c :: rest).takeWhile (fun d => isDigitC d)) ::
        digitRunsAux fuel ((c :: rest).dropWhile (fun d => isDigitC d))
    else
      digitRunsAux fuel rest

/-- Maximal runs of decimal digits, the matches of Python `re.findall(r'\d+', s)`. -/
def digitRuns (s : Str) : List Str := digitRunsAux (s.length + 1) s

/-- Insert an element at the back unless already present (Python `dict` / `set` insertion order). -/
def insertUniq (l : List String) (x : String) : List String :=
  if x ∈ l then l else l ++ [x]

/-- Insert each element of `v` in order, keeping first-come order and no duplicates. -/
def insertAllUniq (l : List String) (v : List String) : List String :=
  v.foldl insertUniq l

/-- Lookup in an association list with a default, Python `dict.get(k, d)`. -/
def getAssoc (m : List (Str × ℕ)) (k : Str) (d : ℕ) : ℕ :=
  match m with
  | [] => d
  | (k', v) :: rest => if k' = k then v else getAssoc rest k d

/-- Increment a counter key, Python `Counter[k] += 1` (insertion order preserved). -/
def incKey (m : List (Str × ℕ)) (k : Str) : List (Str × ℕ) :=
  match m with
  | [] => [(k, 1)]
  | (k', v) :: rest => if k' = k then (k', v + 1) :: rest else (k', v) :: incKey rest k

/-- Increment every key of `ks` in order. -/
def incAll (m : List (Str × ℕ)) (ks : List Str) : List (Str × ℕ) :=
  ks.foldl incKey m

/-- Set a key to a value, Python `dict[k] = v` (insertion order preserved). -/
def setKey (m : List (Str × ℕ)) (k : Str) (v : ℕ) : List (Str × ℕ) :=
  match m with
  | [] => [(k, v)]
  | (k', v') :: rest => if k' = k then (k', v) :: rest else (k', v') :: setKey rest k v

/-- Word boundary to the left of the current position, given the preceding character. -/
def boundaryBefore (prev : Option Char) : Bool :=
  match prev with
  | none => true
  | some c => ¬ isWordC c

/-- Word boundary right after a matched word, given the remaining characters. -/
def boundaryAfter (rest : Str) : Bool :=
  match rest with
  | [] => true
  | c :: _ => ¬ isWordC c

/-- Worker counting the positions where `w` occurs delimited by word boundaries. -/
def countWordAux (prev : Option Char) (s w : Str) : ℕ :=
  match s with
  | [] => 0
  | c :: rest =>
    (if boundaryBefore prev ∧ startsW w s ∧ boundaryAfter (s.drop w.length) then 1 else 0) +
      countWordAux (some c) rest w

/-- Number of matches of Python `re.findall(r'\b' + re.escape(w) + r'\b', s)` for a
word `w` made of word characters: occurrences delimited by word boundaries never
overlap, so the findall count equals the count of matching positions. -/
def countWord (s w : Str) : ℕ := countWordAux none s w

/-- Existence of a word-boundary-delimited occurrence, Python `re.search` of the same pattern. -/
def searchWord (s w : Str) : Bool := 0 < countWord s w

/-- Tokens of the miniature pattern language covering every regular expression the
sources apply to document text: a literal character, a non-empty digit run `\d+`,
a single-character class, and an optional single character. -/
inductive MTok where
  | lit : Char → MTok
  | digits : MTok
  | cls : List Char → MTok
  | opt : Char → MTok
deriving DecidableEq

/-- Match a token list at the head of a string, returning the matched characters and
the rest.  `digits` is greedy; in every pattern used by the sources the character
after a greedy run can never extend the run, and an optional character never equals
the character that follows it in the pattern, so greedy matching without
backtracking coincides with Python's regex semantics. -/
def matchToks : List MTok → Str → Option (Str × Str)
  | [], s => some ([], s)
  | MTok.lit c :: ts, s =>
    match s with
    | [] => none
    | x :: rest =>
      if x = c then
        match matchToks ts rest with
        | some (m, r) => some (x :: m, r)
        | none => none
      else none
  | MTok.digits :: ts, s =>
    let run := s.takeWhile (fun d => isDigitC d)
    if run.isEmpty then none
    else
      match matchToks ts (s.dropWhile (fun d => isDigitC d)) with
      | some (m, r) => some (run ++ m, r)
      | none => none
  | MTok.cls cs :: ts, s =>
    match s with
    | [] => none
    | x :: rest =>
      if x ∈ cs then
        match matchToks ts rest with
        | some (m, r) => some (x :: m, r)
        | none => none
      else none
  | MTok.opt c :: ts, s =>
    match s with
    | [] => matchToks ts []
    | x :: rest =>
      if x = c then
        match matchToks ts rest with
        | some (m, r) => some (x :: m, r)
        | none => none
      else matchToks ts s

/-- Python `re.search(pat, s) is not None` for a pattern of the mini language. -/
def searchPat (pat : List MTok) (s : Str) : Bool :=
  match s with
  | [] => (matchToks pat []).isSome
  | _ :: rest => (matchToks pat s).isSome ∨ searchPat pat rest

/-- Worker for `findallPat`, structurally recursive on a fuel bound. -/
def findallPatAux (fuel : ℕ) (pat : List MTok) (s : Str) : List Str :=
  match fuel, s with
  | 0, _ => []
  | _, [] => []
  | fuel + 1, _ :: rest =>
    match matchToks pat s with
    | some (m, r) =>
      if m.isEmpty then findallPatAux fuel pat rest
      else m :: findallPatAux fuel pat r
    | none => findallPatAux fuel pat rest

/-- Python `re.findall(pat, s)`: leftmost non-overlapping matches. -/
def findallPat (pat : List MTok) (s : Str) : List Str := findallPatAux (s.length + 1) pat s

/-- Literal characters of a string as `lit` tokens. -/
def litToks (s : Str) : List MTok := s.map MTok.lit

/-- Deduplicating append for character lists (Python `set.add`, order kept for folding). -/
def dedupAppend (l : List Str) (x : Str) : List Str :=
  if x ∈ l then l else l ++ [x]

/-- Add all matches of a list into a deduplicated accumulator (Python `set.update`). -/
def unionStr (l : List Str) (v : List Str) : List Str :=
  v.foldl dedupAppend l

/-- Lookup in a `String`-keyed association list with a default. -/
def getAssocS (m : List (String × ℕ)) (k : String) (d : ℕ) : ℕ :=
  match m with
  | [] => d
  | (k', v) :: rest => if k' = k then v else getAssocS rest k d

/-- Mutable counters of `Comprehensive2025ResumeAnalyzer` (src/resume_metrics.py,
`__init__`).  The dictionary `power_verb_usage` is modelled by its key list in
insertion order: no reader of the analyzer inspects the stored values, only the
key set and its size.  `section_lengths` is present, is initialised empty and is
never written anywhere in the source. -/
structure AState where
  keywordFreq : List (Str × ℕ)
  metricsCount : ℕ
  verbKeys : List String
  sectionLengths : List (String × ℕ)
  sectionsFound : List String
  atsIssues : List String
  bulletsAnalyzed : ℕ
  bulletsWithMetrics : ℕ
deriving DecidableEq

/-- Fresh analyzer state (the `__init__` method). -/
def AState.init : AState := ⟨[], 0, [], [], [], [], 0, 0⟩

/-- Final quality score record (`ResumeScore` dataclass). -/
structure ResumeScore where
  overall : ℚ
  content : ℚ
  format : ℚ
  keywords : ℚ
  technical : ℚ
  grade : String
deriving DecidableEq

/-- The parts of the analysis report read by the claims: the score and the counters
exposed by the detailed breakdown (`issues_found` from `_get_format_breakdown`,
`required_found` from the sections list). -/
structure Report where
  score : ResumeScore
  issuesFound : ℕ
  sectionsCount : ℕ
deriving DecidableEq

/-- One power-verb category of `POWER_VERBS` in src/resume_metrics.py. -/
structure VerbCat where
  name : String
  verbs : List String
  required : ℕ
  weight : ℚ

/-- The `POWER_VERBS` table of the analyzer. -/
def POWER_VERBS : List VerbCat :=
  [⟨"Leadership", ["Spearheaded", "Directed", "Led", "Drove", "Championed", "Orchestrated"], 2, 2⟩,
   ⟨"Technical", ["Architected", "Engineered", "Built", "Designed", "Implemented", "Developed"], 4, 5/2⟩,
   ⟨"Optimization", ["Optimized", "Enhanced", "Streamlined", "Improved", "Accelerated", "Reduced"], 2, 2⟩,
   ⟨"Scale", ["Scaled", "Expanded", "Migrated", "Transformed", "Modernized"], 1, 3/2⟩,
   ⟨"Delivery", ["Delivered", "Shipped", "Launched", "Deployed", "Released"], 1, 3/2⟩]

/-- One keyword tier of `CRITICAL_KEYWORDS_2025`. -/
structure KwTier where
  keywords : List String
  weight : ℚ
  targetLo : ℕ
  targetHi : ℕ
  category : String

/-- The `CRITICAL_KEYWORDS_2025` table. -/
def CRITICAL_KEYWORDS_2025 : List KwTier :=
  [⟨["AI", "ML", "LLM", "GenAI", "RAG", "Vector Database", "Langchain"], 3, 2, 3, "AI/ML"⟩,
   ⟨["Real-time", "Streaming", "Event-driven", "CDC", "Kafka", "Kinesis"], 5/2, 2, 4, "Real-Time"⟩,
   ⟨["AWS", "Cloud-native", "Serverless", "Docker", "Kubernetes", "dbt", "Airflow", "Spark"],
    2, 2, 3, "Cloud/Modern Stack"⟩,
   ⟨["Python", "SQL", "ETL", "Data Pipeline", "Data Warehouse", "Data Lake", "PostgreSQL"],
    3/2, 1, 3, "Core Skills"⟩]

/-- The `ATS_KILLERS` table: each regex is a literal string, so `re.search` is containment. -/
def ATS_KILLERS : List (Str × String) :=
  [("\\includegraphics".data, "Images/Graphics"),
   ("\\begin\x7bfigure\x7d".data, "Figure environments"),
   ("\\begin\x7bmulticols\x7d".data, "Multi-column layout"),
   ("\\twocolumn".data, "Two-column layout"),
   ("\\fontspec".data, "Custom fonts"),
   ("\\begin\x7bwrapfigure\x7d".data, "Text wrapping around images")]

/-- Section-header patterns of `_identify_sections`; the `\section{...}` regexes are
literal strings, so every pattern check is a containment check on the lowered text. -/
def sectionPatterns : List (String × List Str) :=
  [("summary", ["\\section\x7bsummary\x7d".data, "\\section\x7bprofessional summary\x7d".data,
                "summary".data, "professional summary".data]),
   ("skills", ["\\section\x7btechnical skills\x7d".data, "\\section\x7bskills\x7d".data,
               "technical skills".data, "skills".data]),
   ("experience", ["\\section\x7bexperience\x7d".data, "\\section\x7bprofessional experience\x7d".data,
                   "experience".data, "professional experience".data]),
   ("education", ["\\section\x7beducation\x7d".data, "education".data]),
   ("projects", ["\\section\x7bprojects\x7d".data, "\\section\x7bkey projects\x7d".data,
                 "projects".data, "key projects".data]),
   ("certifications", ["\\section\x7bcertifications\x7d".data, "certifications".data])]

/-- Section names whose pattern list matches the document (`_identify_sections` loop body). -/
def sectionNamesOf (content : Str) : List String :=
  sectionPatterns.filterMap (fun p =>
    if p.2.any (fun pat => containsSub (lowerL content) pat) then some p.1 else none)

/-- The `_identify_sections` method: add every matched section to `sections_found`. -/
def identify_sections (found : List String) (content : Str) : List String :=
  insertAllUniq found (sectionNamesOf content)

/-- Keys `"Category:Verb"` of the power verbs found in the text, in table order
(the verb-tracking loop of `_analyze_content`). -/
def verbKeysOf (content : Str) : List String :=
  (POWER_VERBS.map (fun cat =>
    (cat.verbs.filter (fun v => 0 < countWord (lowerL content) (lowerL v.data))).map
      (fun v => cat.name ++ ":" ++ v))).flatten

/-- Record the verbs of the text into `power_verb_usage` (key set, insertion order). -/
def trackVerbs (keys : List String) (content : Str) : List String :=
  insertAllUniq keys (verbKeysOf content)

/-- Distinct verbs recorded under a category (the key scan of `_calculate_power_verb_score`). -/
def distinctSuffixes (keys : List String) (catName : String) : ℕ :=
  (insertAllUniq [] (keys.filterMap (fun k =>
    if startsW (catName ++ ":").data k.data then
      some (String.mk (k.data.drop (catName.length + 1)))
    else none))).length

/-- The `_calculate_power_verb_score` method. -/
def calculate_power_verb_score (keys : List String) : ℚ :=
  POWER_VERBS.foldl (fun score cat =>
    let count := distinctSuffixes keys cat.name
    if cat.required ≤ count then score + cat.weight
    else if (cat.required : ℚ) * (1/2) ≤ (count : ℚ) then score + cat.weight * (7/10)
    else if 0 < cat.required then score + ((count : ℚ) / (cat.required : ℚ)) * cat.weight * (1/2)
    else score) 0

/-- The `_calculate_section_balance` method. -/
def calculate_section_balance (sl : List (String × ℕ)) : ℚ :=
  let total := (sl.map Prod.snd).sum
  if total = 0 then 5
  else
    let expRatio : ℚ := (getAssocS sl "experience" 0 : ℚ) / (total : ℚ)
    if 2/5 ≤ expRatio ∧ expRatio ≤ 1/2 then max 0 10
    else if (7/20 ≤ expRatio ∧ expRatio < 2/5) ∨ (1/2 < expRatio ∧ expRatio ≤ 11/20) then
      max 0 (10 - 2)
    else max 0 (10 - 4)

/-- The five pronoun alternatives of `_check_professional_language`; at any position at
most one alternative can match, so the findall count is the sum of per-word counts. -/
def pronounWords : List Str := ["i".data, "me".data, "my".data, "we".data, "our".data]

/-- The `_check_professional_language` method. -/
def check_professional_language (content : Str) : ℚ :=
  let pronouns : ℕ := (pronounWords.map (fun w => countWord (lowerL content) w)).sum
  let passive : ℕ :=
    countSub (lowerL content) "was built".data + countSub (lowerL content) "were created".data +
      countSub (lowerL content) "is managed".data
  max 0 ((10 - min 3 ((pronouns : ℚ) / 2)) - min 2 (passive : ℚ))

/-- The fluff/buzzword list of `_check_fluff_words`. -/
def fluff_words : List String :=
  ["synergy", "leverage", "paradigm", "utilize", "facilitate",
   "innovative", "cutting-edge", "best-in-class", "world-class"]

/-- The `_check_fluff_words` method: half a point per fluff word present, truncated to int. -/
def check_fluff_words (content : Str) : ℤ :=
  Int.floor (fluff_words.foldl
    (fun acc w => if containsSub (lowerL content) w.data then acc + (1/2 : ℚ) else acc) 0)

/-- The no-fluff summand of `_analyze_content`: `max(0, 5 - self._check_fluff_words(content))`. -/
def no_fluff_part (content : Str) : ℚ :=
  max 0 (5 - (check_fluff_words content : ℚ))

/-- The metric regexes of `_analyze_content` (`metrics_patterns`), in source order. -/
def metricsPatterns : List (List MTok) :=
  [[MTok.digits, MTok.lit bslash, MTok.lit '%'],
   [MTok.digits, MTok.lit '%'],
   [MTok.digits, MTok.lit '+'],
   [MTok.digits, MTok.cls ['K', 'M', 'B'], MTok.opt '+'],
   [MTok.digits, MTok.cls ['K', 'M', 'B']],
   [MTok.digits, MTok.lit '.', MTok.digits, MTok.lit bslash, MTok.lit '%'],
   [MTok.digits, MTok.lit '.', MTok.digits, MTok.lit '%'],
   [MTok.digits, MTok.lit ',', MTok.digits, MTok.opt '+'],
   [MTok.digits, MTok.lit 'T', MTok.lit 'B'],
   [MTok.digits, MTok.lit 'G', MTok.lit 'B'],
   [MTok.digits, MTok.lit 'x'],
   [MTok.digits] ++ litToks " hour".data ++ [MTok.opt 's'],
   [MTok.digits] ++ litToks " minute".data ++ [MTok.opt 's'],
   [MTok.digits] ++ litToks " second".data ++ [MTok.opt 's'],
   [MTok.digits] ++ litToks " user".data ++ [MTok.opt 's'],
   [MTok.digits] ++ litToks " table".data ++ [MTok.opt 's'],
   [MTok.digits] ++ litToks " event".data ++ [MTok.opt 's'],
   [MTok.digits] ++ litToks " report".data ++ [MTok.opt 's'],
   litToks "from ".data ++ [MTok.digits, MTok.opt bslash, MTok.lit '%'],
   litToks "to ".data ++ [MTok.digits, MTok.opt bslash, MTok.lit '%']]

/-- The bullet macro separator `\resumeItem{`. -/
def resumeItemSep : Str := "\\resumeItem\x7b".data

/-- The plain bullet marker `\item `. -/
def itemSep : Str := "\\item ".data

/-- Bullet count of `_analyze_content`: the macro count, else the `\item` count. -/
def bulletsOf (content : Str) : ℕ :=
  let n := countSub content resumeItemSep
  if n = 0 then countSub content itemSep else n

/-- Worker for the brace-counting bullet extraction of `_analyze_content`. -/
def extractBracedAux (bc : ℕ) : Str → Str
  | [] => []
  | c :: rest =>
    if c = braceL then c :: extractBracedAux (bc + 1) rest
    else if c = braceR then
      if bc = 1 then [] else c :: extractBracedAux (bc - 1) rest
    else c :: extractBracedAux bc rest

/-- Text of one bullet: characters up to the brace balancing the opening one. -/
def extractBraced (item : Str) : Str := extractBracedAux 1 item

/-- Whether one bullet text matches any metric pattern. -/
def hasMetricBullet (b : Str) : Bool := metricsPatterns.any (fun p => searchPat p b)

/-- The bullet texts examined by `_analyze_content` (split on the macro, first chunk dropped). -/
def bulletTexts (content : Str) : List Str :=
  ((splitOnSub content resumeItemSep).drop 1).map extractBraced

/-- Bullets containing a metric (`bullets_with_metrics`). -/
def bwmOf (content : Str) : ℕ := (bulletTexts content).countP (fun b => hasMetricBullet b)

/-- Number of distinct metric matches over all patterns (`all_metrics` set size). -/
def metricsDistinct (content : Str) : ℕ :=
  (metricsPatterns.foldl (fun acc p => unionStr acc (findallPat p content)) []).length

/-- The quantification summand of `_analyze_content` (15 points). -/
def metric_part (content : Str) : ℚ :=
  let bullets := bulletsOf content
  if 0 < bullets then
    let ratio : ℚ := (bwmOf content : ℚ) / (bullets : ℚ)
    if 9/10 ≤ ratio then 15
    else if 7/10 ≤ ratio then 12
    else if 1/2 ≤ ratio then 8
    else max 3 ((Int.floor (ratio * 15) : ℤ) : ℚ)
  else 5

/-- The `_analyze_content` method: content-quality score and the state it mutates. -/
def analyze_content (st : AState) (content : Str) : ℚ × AState :=
  let sections' := identify_sections st.sectionsFound content
  let vkeys' := trackVerbs st.verbKeys content
  let bullets := bulletsOf content
  let score :=
    metric_part content
    + min 10 (calculate_power_verb_score vkeys')
    + min 10 (calculate_section_balance st.sectionLengths)
    + min 10 (check_professional_language content)
    + no_fluff_part content
  (min 50 score,
   { st with
      sectionsFound := sections'
      verbKeys := vkeys'
      bulletsAnalyzed := bullets
      metricsCount := metricsDistinct content
      bulletsWithMetrics := if 0 < bullets then bwmOf content else st.bulletsWithMetrics })

/-- The ATS-hostile constructs present in the document. -/
def atsFound (latex : Str) : List (Str × String) :=
  ATS_KILLERS.filter (fun k => containsSub latex k.1)

/-- The required-section groups checked by `_analyze_format`. -/
def sectionGroups : List (List String) :=
  [["summary", "professional summary", "objective"],
   ["skills", "technical skills", "core competencies"],
   ["experience", "professional experience", "work experience"],
   ["education"],
   ["projects", "key projects"]]

/-- How many required section groups have a recognized header in `sections_found`. -/
def sectionsFoundCount (found : List String) : ℕ :=
  sectionGroups.countP (fun g => g.any (fun s => s ∈ found))

/-- The `_analyze_format` method: format score and the issue list it appends to. -/
def analyze_format (st : AState) (latex : Str) : ℚ × AState :=
  let killers := atsFound latex
  let score1 : ℚ := 20 - 2 * (killers.length : ℚ)
  let sf := sectionsFoundCount st.sectionsFound
  let score2 := if sf < 5 then score1 - ((5 - sf : ℕ) : ℚ) * 2 else score1
  let tables := countSub latex "\\begin\x7btabular\x7d".data
  let score3 := if 1 < tables then score2 - ((tables - 1 : ℕ) : ℚ) * (1/2) else score2
  (max 0 score3,
   { st with atsIssues := st.atsIssues ++ killers.map (fun k => "ATS Killer: " ++ k.2) })

/-- Score contribution of one keyword occurrence count inside a tier. -/
def kwContribution (tier : KwTier) (count : ℕ) : ℚ :=
  if tier.targetLo ≤ count ∧ count ≤ tier.targetHi then tier.weight
  else if tier.targetHi < count then tier.weight * (1/2)
  else if count + 1 = tier.targetLo then tier.weight * (7/10)
  else 0

/-- Weighted score of one keyword tier on the document. -/
def tierScore (tier : KwTier) (content : Str) : ℚ :=
  tier.keywords.foldl
    (fun s kw => s + kwContribution tier (countSub (lowerL content) (lowerL kw.data))) 0

/-- The `_analyze_keywords` method: keyword score and the frequency table it assigns. -/
def analyze_keywords (st : AState) (content : Str) : ℚ × AState :=
  let scores := CRITICAL_KEYWORDS_2025.map (fun t => (t.category, tierScore t content))
  let aiml := ((scores.lookup "AI/ML").getD 0)
  let base : ℚ := if 6 ≤ aiml then 10 else if 3 ≤ aiml then 6 else 2
  let totalOther := ((scores.filter (fun p => ¬ p.1 = "AI/ML")).map Prod.snd).sum
  let kf' := CRITICAL_KEYWORDS_2025.foldl (fun m t =>
    t.keywords.foldl (fun m kw => setKey m kw.data (countSub (lowerL content) (lowerL kw.data))) m)
    st.keywordFreq
  (base + min 10 (totalOther / 2), { st with keywordFreq := kf' })

/-- Concrete technology names of `_analyze_technical_depth` (matched case-sensitively). -/
def specific_tech : List String :=
  ["Apache Kafka", "AWS Lambda", "Redshift", "Kinesis", "dbt",
   "PySpark", "Airflow", "PostgreSQL", "Docker", "Kubernetes",
   "Terraform", "CloudFormation", "Pinecone", "Weaviate"]

/-- Architecture vocabulary of `_analyze_technical_depth`. -/
def arch_keywords : List String :=
  ["architecture", "designed", "architected", "scalable",
   "distributed", "microservices", "event-driven"]

/-- Alternatives of the large-scale regex `\d+M\+|\d+TB|\d+K\+`. -/
def largeScalePatterns : List (List MTok) :=
  [[MTok.digits, MTok.lit 'M', MTok.lit '+'],
   [MTok.digits, MTok.lit 'T', MTok.lit 'B'],
   [MTok.digits, MTok.lit 'K', MTok.lit '+']]

/-- The `_analyze_technical_depth` method (pure in the document). -/
def analyze_technical_depth (content : Str) : ℚ :=
  let tech : ℕ := specific_tech.countP (fun t => containsSub content t.data)
  let arch : ℕ := arch_keywords.countP (fun k => containsSub (lowerL content) (lowerL k.data))
  min 5 ((tech : ℚ) / 2) + min 2 ((arch : ℚ) / 2) +
    (if largeScalePatterns.any (fun p => searchPat p content) then 3 else 0)

/-- The `_calculate_grade` method. -/
def calculate_grade (score : ℚ) : String :=
  if 95 ≤ score then "A+"
  else if 90 ≤ score then "A"
  else if 85 ≤ score then "A-"
  else if 80 ≤ score then "B+"
  else if 75 ≤ score then "B"
  else if 70 ≤ score then "B-"
  else if 60 ≤ score then "C"
  else "F"

/-- Python `round(x, 1)` modelled over exact rationals: round to the nearest tenth. -/
def round1 (q : ℚ) : ℚ := ((round (10 * q) : ℤ) : ℚ) / 10

/-- The `analyze_comprehensive` method: runs the four phases in source order on the
shared mutable state and assembles the reported `ResumeScore` (each field rounded
to one decimal, the grade computed from the unrounded sum). -/
def analyze_comprehensive (st : AState) (content latexContent : Str) : Report × AState :=
  let text := if latexContent.isEmpty then content else latexContent
  let cs := analyze_content st text
  let fs := analyze_format cs.2 text
  let ks := analyze_keywords fs.2 text
  let ts := analyze_technical_depth text
  let overall := cs.1 + fs.1 + ks.1 + ts
  ({ score :=
      { overall := round1 overall
        content := round1 cs.1
        format := round1 fs.1
        keywords := round1 ks.1
        technical := round1 ts
        grade := calculate_grade overall }
     issuesFound := ks.2.atsIssues.length
     sectionsCount := ks.2.sectionsFound.length },
   ks.2)

/-- The `ALL_POWER_VERBS` list of `IntelligentResumeOptimizer`. -/
def ALL_POWER_VERBS : List String :=
  ["Spearheaded", "Directed", "Led", "Drove", "Championed", "Orchestrated",
   "Architected", "Engineered", "Built", "Designed", "Implemented", "Developed",
   "Optimized", "Enhanced", "Streamlined", "Improved", "Accelerated", "Refined",
   "Scaled", "Expanded", "Migrated", "Transformed", "Modernized",
   "Delivered", "Shipped", "Launched", "Deployed", "Released", "Executed",
   "Reduced", "Increased", "Created", "Established", "Coordinated"]

/-- The `POWER_VERB_SYNONYMS` table. -/
def POWER_VERB_SYNONYMS : List (Str × List Str) :=
  [("designed".data, ["architected".data, "engineered".data, "crafted".data, "built".data, "planned".data]),
   ("built".data, ["engineered".data, "developed".data, "created".data, "constructed".data, "established".data]),
   ("created".data, ["established".data, "generated".data, "initiated".data, "built".data, "developed".data]),
   ("developed".data, ["engineered".data, "built".data, "implemented".data, "delivered".data, "created".data]),
   ("implemented".data, ["deployed".data, "executed".data, "delivered".data, "launched".data, "established".data]),
   ("reduced".data, ["decreased".data, "minimized".data, "cut".data, "lowered".data, "slashed".data]),
   ("improved".data, ["enhanced".data, "optimized".data, "strengthened".data, "boosted".data, "elevated".data]),
   ("increased".data, ["boosted".data, "elevated".data, "expanded".data, "grew".data, "scaled".data]),
   ("led".data, ["spearheaded".data, "directed".data, "drove".data, "championed".data, "headed".data]),
   ("managed".data, ["oversaw".data, "directed".data, "coordinated".data, "supervised".data, "administered".data]),
   ("optimized".data, ["enhanced".data, "streamlined".data, "refined".data, "accelerated".data, "improved".data]),
   ("delivered".data, ["shipped".data, "launched".data, "deployed".data, "executed".data, "released".data]),
   ("collaborated".data, ["partnered".data, "coordinated".data, "teamed with".data, "worked with".data]),
   ("analyzed".data, ["evaluated".data, "assessed".data, "examined".data, "investigated".data, "studied".data]),
   ("architected".data, ["engineered".data, "designed".data, "built".data, "created".data, "developed".data])]

/-- The optimizer's `METRIC_PATTERNS` regex list. -/
def METRIC_PATTERNS : List (List MTok) :=
  [[MTok.digits, MTok.lit '%'],
   [MTok.digits, MTok.lit '+'],
   [MTok.digits, MTok.cls ['K', 'M', 'B'], MTok.opt '+'],
   [MTok.digits, MTok.lit 'x'],
   [MTok.digits, MTok.lit '.', MTok.digits, MTok.lit '%'],
   [MTok.digits, MTok.lit ',', MTok.digits],
   [MTok.digits, MTok.lit 'T', MTok.lit 'B'],
   [MTok.digits, MTok.lit 'G', MTok.lit 'B'],
   [MTok.digits] ++ litToks " hour".data ++ [MTok.opt 's'],
   [MTok.digits] ++ litToks " minute".data ++ [MTok.opt 's'],
   [MTok.digits] ++ litToks " user".data ++ [MTok.opt 's'],
   [MTok.digits] ++ litToks " table".data ++ [MTok.opt 's'],
   [MTok.digits] ++ litToks " event".data ++ [MTok.opt 's'],
   [MTok.digits] ++ litToks " report".data ++ [MTok.opt 's']]

/-- Keyword profile produced by the generator and consumed by the optimizer
(`KeywordProfile` dataclass in src/keyword_generator.py). -/
structure KeywordProfile where
  role : String
  primary_keywords : List String
  secondary_keywords : List String
  technical_skills : List String
  power_verbs : List (String × List String)
  industry_buzzwords : List String
  synonyms : List (String × List String)
deriving DecidableEq

/-- The cross-document rewrite state of `IntelligentResumeOptimizer`: the
`used_verbs` counter plus the two bullet counters. -/
structure OptState where
  used_verbs : List (Str × ℕ)
  bullets_total : ℕ
  bullets_with_metrics : ℕ
deriving DecidableEq

/-- Fresh optimizer state (the `__init__` method). -/
def OptState.init : OptState := ⟨[], 0, 0⟩

/-- The `OptimizationResult` dataclass. -/
structure OptimizationResult where
  original : Str
  optimized : Str
  keywords_added : List String
  improvements : List String
  repetitions_fixed : List (Str × ℕ)
  factuality_score : ℚ
  has_metrics : Bool
deriving DecidableEq

/-- The `RepetitionAnalysis` dataclass. -/
structure RepetitionAnalysis where
  repeated_words : List (Str × ℕ)
  suggested_synonyms : List (Str × List Str)
  severity : String
deriving DecidableEq

/-- Outcome of the single external generation call inside `optimize_content`:
the collaborator either raises an exception (with a message) or returns a text. -/
inductive AIOutcome where
  | raises : String → AIOutcome
  | returns : Str → AIOutcome
deriving DecidableEq

/-- The `_has_metrics` method. -/
def has_metrics (content : Str) : Bool :=
  METRIC_PATTERNS.any (fun p => searchPat p content)

/-- The `_extract_leading_verb` method: regex `^([A-Z][a-z]+)` on the stripped text. -/
def extract_leading_verb (content : Str) : Str :=
  match stripL content with
  | [] => []
  | c :: rest =>
    if isUpperAlpha c then
      let run := rest.takeWhile (fun d => isLowerAlpha d)
      if run.isEmpty then [] else c :: run
    else []

/-- The `_extract_all_verbs` method: every power verb with a word-boundary
occurrence anywhere in the lowered text, in table order. -/
def extract_all_verbs (content : Str) : List String :=
  ALL_POWER_VERBS.filter (fun v => 0 < countWord (lowerL content) (lowerL v.data))

/-- Worker listing the matches of `\b[a-z]+\b` on the lowered text: maximal
lower-case-letter runs not adjacent to another word character.  After a run the
scan continues past it with a letter as previous character (only its
word-character-ness matters). -/
def lowerRunsAux (fuel : ℕ) (prev : Option Char) (s : Str) : List Str :=
  match fuel, s with
  | 0, _ => []
  | _, [] => []
  | fuel + 1, c :: rest =>
    if isLowerAlpha c ∧ boundaryBefore prev then
      let run := (c :: rest).takeWhile (fun d => isLowerAlpha d)
      let tail := (c :: rest).dropWhile (fun d => isLowerAlpha d)
      if boundaryAfter tail then run :: lowerRunsAux fuel (some 'a') tail
      else lowerRunsAux fuel (some 'a') tail
    else
      lowerRunsAux fuel (some c) rest

/-- Python `re.findall(r'\b[a-z]+\b', content.lower())`. -/
def wordsOf (content : Str) : List Str :=
  lowerRunsAux (content.length + 1) none (lowerL content)

/-- Python `collections.Counter` of a word list, insertion order kept. -/
def countsOf (ws : List Str) : List (Str × ℕ) := ws.foldl incKey []

/-- The `_analyze_repetitions` method. -/
def analyze_repetitions (content : Str) : RepetitionAnalysis :=
  let wc := countsOf (wordsOf content)
  let repeated := wc.filter (fun p => 3 ≤ p.2 ∧ 3 < p.1.length)
  let suggested := repeated.filterMap (fun p =>
    match POWER_VERB_SYNONYMS.lookup p.1 with
    | some syns => some (p.1, syns)
    | none => none)
  { repeated_words := repeated
    suggested_synonyms := suggested
    severity := if repeated.isEmpty then "low" else "high" }

/-- The `_count_repetitions_fixed` method. -/
def count_repetitions_fixed (analysis : RepetitionAnalysis) (optimized : Str) :
    List (Str × ℕ) :=
  let optCounts := countsOf (wordsOf optimized)
  analysis.repeated_words.filterMap (fun p =>
    let nc := getAssoc optCounts p.1 0
    if nc < p.2 then some (p.1, p.2 - nc) else none)

/-- The `_extract_keywords` method. -/
def extract_keywords (content : Str) (profile : KeywordProfile) : List String :=
  (profile.primary_keywords ++ profile.secondary_keywords).filter
    (fun kw => containsSub (lowerL content) (lowerL kw.data))

/-- The `_find_missing_keywords` method. -/
def find_missing_keywords (content : Str) (profile : KeywordProfile) : List String :=
  (profile.primary_keywords.filter
    (fun kw => ¬ containsSub (lowerL content) (lowerL kw.data))).take 10

/-- The `_validate_simple` method: number-token preservation at the 80% threshold,
then the `[0.4x, 3x]` length window (rational arithmetic for `0.4` and `0.8`). -/
def validate_simple (original optimized : Str) : Bool :=
  let orig_nums := digitRuns original
  let preserved := (orig_nums.filter (fun n => containsSub optimized n)).length
  if ¬ orig_nums.isEmpty ∧ 5 * preserved < 4 * orig_nums.length then false
  else if 3 * original.length < optimized.length ∨ 5 * optimized.length < 2 * original.length then
    false
  else true

/-- Anchored removal of a leading list marker, regex `^[\d\-\*•]+[\.\)]\s*` of
`_clean_output`: a non-empty run of marker characters must be followed by `.` or
`)` (neither is a marker character, so the greedy run needs no backtracking). -/
def dropLeadMarker (t : Str) : Str :=
  match t with
  | [] => []
  | c :: _ =>
    let isMark := fun d => isDigitC d ∨ d = '-' ∨ d = '*' ∨ d = '•'
    if isMark c then
      match t.dropWhile isMark with
      | p :: rest' =>
        if p = '.' ∨ p = ')' then rest'.dropWhile (fun d => isSpaceC d) else t
      | [] => t
    else t

/-- Match `\*\*([^*]+)\*\*` at the head of the string, returning group and rest. -/
def matchBold (s : Str) : Option (Str × Str) :=
  match s with
  | a :: b :: t =>
    if a = '*' ∧ b = '*' then
      let run := t.takeWhile (fun d => ¬ d = '*')
      if run.isEmpty then none
      else
        match t.dropWhile (fun d => ¬ d = '*') with
        | x :: y :: r => if x = '*' ∧ y = '*' then some (run, r) else none
        | _ => none
    else none
  | _ => none

/-- Global substitution `re.sub(r'\*\*([^*]+)\*\*', r'\1', s)`. -/
def subBoldAux (fuel : ℕ) (s : Str) : Str :=
  match fuel, s with
  | 0, _ => s
  | _, [] => []
  | fuel + 1, c :: rest =>
    match matchBold (c :: rest) with
    | some (run, r) => run ++ subBoldAux fuel r
    | none => c :: subBoldAux fuel rest

/-- Strip bold emphasis markup. -/
def subBold (s : Str) : Str := subBoldAux (s.length + 1) s

/-- Match `\*([^*]+)\*` at the head of the string, returning group and rest. -/
def matchItal (s : Str) : Option (Str × Str) :=
  match s with
  | a :: t =>
    if a = '*' then
      let run := t.takeWhile (fun d => ¬ d = '*')
      if run.isEmpty then none
      else
        match t.dropWhile (fun d => ¬ d = '*') with
        | x :: r => if x = '*' then some (run, r) else none
        | _ => none
    else none
  | _ => none

/-- Global substitution `re.sub(r'\*([^*]+)\*', r'\1', s)`. -/
def subItalAux (fuel : ℕ) (s : Str) : Str :=
  match fuel, s with
  | 0, _ => s
  | _, [] => []
  | fuel + 1, c :: rest =>
    match matchItal (c :: rest) with
    | some (run, r) => run ++ subItalAux fuel r
    | none => c :: subItalAux fuel rest

/-- Strip italic emphasis markup. -/
def subItal (s : Str) : Str := subItalAux (s.length + 1) s

/-- Whether a string starts with a whitespace character. -/
def headIsSpace (s : Str) : Bool :=
  match s with
  | r :: _ => isSpaceC r
  | [] => false

/-- Worker for `re.split(r'[.!?]\s+', s)`: the separator is one punctuation
character followed by a maximal non-empty whitespace run, both removed. -/
def splitSentAux (fuel : ℕ) (acc : Str) (s : Str) : List Str :=
  match fuel, s with
  | 0, _ => [acc.reverse ++ s]
  | _, [] => [acc.reverse]
  | fuel + 1, c :: rest =>
    if (c = '.' ∨ c = '!' ∨ c = '?') ∧ headIsSpace rest then
      acc.reverse :: splitSentAux fuel [] (rest.dropWhile (fun d => isSpaceC d))
    else
      splitSentAux fuel (c :: acc) rest

/-- Sentence split used by `_clean_output` for experience bullets. -/
def splitSent (s : Str) : List Str := splitSentAux (s.length + 1) [] s

/-- Worker collapsing every whitespace run to a single space, `re.sub(r'\s+', ' ', s)`. -/
def collapseWSAux (fuel : ℕ) (s : Str) : Str :=
  match fuel, s with
  | 0, _ => s
  | _, [] => []
  | fuel + 1, c :: rest =>
    if isSpaceC c then ' ' :: collapseWSAux fuel (rest.dropWhile (fun d => isSpaceC d))
    else c :: collapseWSAux fuel rest

/-- Collapse whitespace runs. -/
def collapseWS (s : Str) : Str := collapseWSAux (s.length + 1) s

/-- The `_clean_output` method. -/
def clean_output (text : Str) (section_type : String) : Str :=
  if text.isEmpty then text
  else
    let t1 := stripL text
    let t2 := dropLeadMarker t1
    let t3 := subBold t2
    let t4 := subItal t3
    let t5 :=
      if section_type = "experience" then
        let sentences := splitSent t4
        if 2 < sentences.length then
          let s0 := sentences.headD []
          if s0.getLast? = some '.' then s0 else s0 ++ ['.']
        else t4
      else t4
    stripL (collapseWS t5)

/-- Verb pre-registration of `optimize_content` (the loop over `content_verbs`):
every power verb found in the original gets its usage count incremented, before
the external generation call. -/
def register_orig_verbs (st : OptState) (content : Str) : OptState :=
  { st with
      used_verbs := incAll st.used_verbs ((extract_all_verbs content).map (fun v => lowerL v.data)) }

/-- The on-acceptance loop over the accepted text's verbs: verbs whose lowered
form was already among the original's verbs are skipped. -/
def register_new_verbs (st : OptState) (origLowers : List Str) (optimized : Str) : OptState :=
  { st with
      used_verbs := incAll st.used_verbs
        (((extract_all_verbs optimized).filter (fun v => ¬ lowerL v.data ∈ origLowers)).map
          (fun v => lowerL v.data)) }

/-- The `optimize_content` method.  The prompt construction is omitted because the
single opaque generation call is the explicit `ai` parameter; the exception
branch of the source's `try` block corresponds to `AIOutcome.raises` (the only
raising operation in the body is the external call). -/
def optimize_content (st : OptState) (content : Str) (section_type : String)
    (profile : KeywordProfile) (_contextTech : List String) (ai : AIOutcome) :
    OptimizationResult × OptState :=
  if content.isEmpty ∨ (stripL content).length < 10 then
    ({ original := content, optimized := content, keywords_added := [],
       improvements := ["Skipped: Too short"], repetitions_fixed := [],
       factuality_score := 1, has_metrics := false }, st)
  else
    let has_metrics_before := has_metrics content
    let content_verbs := extract_all_verbs content
    let st1 := register_orig_verbs st content
    let current_verb := extract_leading_verb content
    let repetition_analysis := analyze_repetitions content
    let current_keywords := extract_keywords content profile
    match ai with
    | AIOutcome.raises msg =>
      ({ original := content, optimized := content, keywords_added := [],
         improvements := ["Error: " ++ msg.take 40], repetitions_fixed := [],
         factuality_score := 1, has_metrics := false }, st1)
    | AIOutcome.returns resp =>
      if resp.isEmpty ∨ (stripL resp).isEmpty then
        ({ original := content, optimized := content, keywords_added := [],
           improvements := ["No AI response"], repetitions_fixed := [],
           factuality_score := 1, has_metrics := has_metrics_before }, st1)
      else
        let optimized := clean_output resp section_type
        if ¬ validate_simple content optimized then
          ({ original := content, optimized := content, keywords_added := [],
             improvements := ["Validation failed"], repetitions_fixed := [],
             factuality_score := 1/2, has_metrics := has_metrics_before }, st1)
        else
          let st2 := register_new_verbs st1 (content_verbs.map (fun v => lowerL v.data)) optimized
          let has_metrics_after := has_metrics optimized
          let new_keywords :=
            (extract_keywords optimized profile).filter (fun k => ¬ k ∈ current_keywords)
          let repetitions_fixed := count_repetitions_fixed repetition_analysis optimized
          let new_verb := extract_leading_verb optimized
          let improvements :=
            (if ¬ new_keywords.isEmpty then
              ["+" ++ toString new_keywords.length ++ " keywords"] else [])
            ++ (if ¬ repetitions_fixed.isEmpty then
                 ["Fixed " ++ toString ((repetitions_fixed.map Prod.snd).sum) ++ " reps"] else [])
            ++ (if has_metrics_after ∧ ¬ has_metrics_before then ["Added metrics"] else [])
            ++ (if ¬ new_verb.isEmpty ∧ ¬ current_verb.isEmpty ∧
                    ¬ lowerL new_verb = lowerL current_verb then ["Varied verb"]
                else if ¬ optimized = content then ["Enhanced"] else [])
          ({ original := content, optimized := optimized, keywords_added := new_keywords,
             improvements := improvements, repetitions_fixed := repetitions_fixed,
             factuality_score := 1, has_metrics := has_metrics_after }, st2)

/-- One role bucket of the `INDUSTRY_KEYWORDS` database. -/
structure BaseKeywords where
  hot_2025 : List String
  core_tech : List String
  cloud : List String
deriving DecidableEq

/-- The `data_engineer` bucket. -/
def dataEngineerKW : BaseKeywords :=
  { hot_2025 := ["AI", "ML", "LLM", "GenAI", "RAG", "Vector Database",
                 "Real-time", "Streaming", "Event-driven", "Cloud-native"]
    core_tech := ["Spark", "Kafka", "Airflow", "dbt", "Redshift", "Snowflake"]
    cloud := ["AWS", "Azure", "GCP", "Kubernetes", "Docker", "Terraform"] }

/-- The `software_engineer` bucket. -/
def softwareEngineerKW : BaseKeywords :=
  { hot_2025 := ["AI", "ML", "Microservices", "Cloud-native", "DevOps", "CI/CD"]
    core_tech := ["Python", "Java", "React", "Node.js", "GraphQL", "REST APIs"]
    cloud := ["AWS", "Kubernetes", "Docker", "Serverless"] }

/-- The `machine_learning_engineer` bucket. -/
def mlEngineerKW : BaseKeywords :=
  { hot_2025 := ["LLM", "GenAI", "Transformers", "RAG", "Fine-tuning", "MLOps"]
    core_tech := ["PyTorch", "TensorFlow", "Scikit-learn", "MLflow", "Kubeflow"]
    cloud := ["AWS SageMaker", "Azure ML", "GCP Vertex AI"] }

/-- The `_normalize_role` method: lower-case, spaces to underscores, then
substring heuristics into one of the fixed bucket keys. -/
def normalize_role (job_role : Str) : String :=
  let rl := (lowerL job_role).map (fun c => if c = ' ' then '_' else c)
  if containsSub rl "data".data ∧ containsSub rl "engineer".data then "data_engineer"
  else if containsSub rl "machine".data ∨ containsSub rl "ml".data then
    "machine_learning_engineer"
  else if containsSub rl "software".data ∨ containsSub rl "backend".data ∨
      containsSub rl "fullstack".data then "software_engineer"
  else "data_engineer"

/-- The `_get_base_keywords` method: `INDUSTRY_KEYWORDS.get(key, data_engineer)`. -/
def get_base_keywords (role_key : String) : BaseKeywords :=
  if role_key = "data_engineer" then dataEngineerKW
  else if role_key = "software_engineer" then softwareEngineerKW
  else if role_key = "machine_learning_engineer" then mlEngineerKW
  else dataEngineerKW

/-- The fixed technical-term vocabulary of `_extract_jd_keywords`. -/
def jdTechTerms : List String :=
  ["Python", "Java", "SQL", "AWS", "Azure", "GCP", "Kubernetes", "Docker",
   "Kafka", "Spark", "Airflow", "dbt", "Redshift", "Snowflake", "BigQuery",
   "Machine Learning", "AI", "ML", "LLM", "GenAI", "RAG", "Vector Database",
   "Real-time", "Streaming", "ETL", "Data Pipeline", "Data Warehouse"]

/-- The `_extract_jd_keywords` method (the source then passes the list through
`list(set(...))`, whose arbitrary ordering is irrelevant: the result only feeds
the enrichment prompt; the filter produces no duplicates). -/
def extract_jd_keywords (job_description : Str) : List String :=
  jdTechTerms.filter (fun t => containsSub (lowerL job_description) (lowerL t.data))

/-- The structured keyword object expected from the external collaborator
(parse result of the JSON response; `dict.get` defaults are the field values). -/
structure EnrichedKeywords where
  primary_keywords : List String
  secondary_keywords : List String
  technical_skills : List String
  power_verbs : List (String × List String)
  industry_buzzwords : List String
  synonyms : List (String × List String)
deriving DecidableEq

/-- The `_fallback_keywords` method. -/
def fallback_keywords (base : BaseKeywords) : EnrichedKeywords :=
  { primary_keywords := base.hot_2025.take 8
    secondary_keywords := base.core_tech.take 10
    technical_skills := base.cloud.take 8
    power_verbs :=
      [("Leadership", ["Led", "Spearheaded", "Drove"]),
       ("Technical", ["Architected", "Engineered", "Built", "Designed"]),
       ("Optimization", ["Optimized", "Enhanced", "Streamlined"])]
    industry_buzzwords := ["AI", "ML", "Cloud-native", "Real-time"]
    synonyms :=
      [("real-time", ["streaming", "low-latency", "instant"]),
       ("cloud", ["cloud-native", "serverless", "distributed"])] }

/-- Index of the last closing brace of a string (0 when absent; only used under
the guard that one exists). -/
def lastCloseIdx (s : Str) : ℕ :=
  (s.foldl (fun (p : ℕ × ℕ) c =>
    (p.1 + 1, if c = braceR then p.1 else p.2)) (0, 0)).2

/-- Characters after the first opening brace, if the string has one. -/
def splitFirstAt (s : Str) : Option Str :=
  match s with
  | [] => none
  | c :: rest => if c = braceL then some rest else splitFirstAt rest

/-- The span matched by `re.search(r'\{.*\}', response, re.DOTALL)`: from the first
opening brace to the last closing brace after it, if any. -/
def braceSpan (s : Str) : Option Str :=
  match splitFirstAt s with
  | none => none
  | some rest =>
    if rest.any (fun c => c = braceR) then
      some (braceL :: rest.take (lastCloseIdx rest + 1))
    else none

/-- The `_ai_enrich_keywords` method.  The external call outcome is the explicit
`ai` parameter; JSON parsing of the located brace span is the `parseJson` oracle
parameter, `none` standing for `json.loads` raising.  Every failure path of the
source's `try` block (call raised, no brace span found, parse raised) returns the
deterministic fallback. -/
def ai_enrich_keywords (base : BaseKeywords) (ai : AIOutcome)
    (parseJson : Str → Option EnrichedKeywords) : EnrichedKeywords :=
  match ai with
  | AIOutcome.raises _ => fallback_keywords base
  | AIOutcome.returns resp =>
    match braceSpan resp with
    | none => fallback_keywords base
    | some span =>
      match parseJson span with
      | some d => d
      | none => fallback_keywords base

/-- The `_build_keyword_profile` method (its `experience_keywords` argument is
received and ignored by the source, as here). -/
def build_keyword_profile (job_role : Str) (enriched : EnrichedKeywords)
    (_experience_keywords : List String) : KeywordProfile :=
  { role := String.mk job_role
    primary_keywords := enriched.primary_keywords
    secondary_keywords := enriched.secondary_keywords
    technical_skills := enriched.technical_skills
    power_verbs := enriched.power_verbs
    industry_buzzwords := enriched.industry_buzzwords
    synonyms := enriched.synonyms }

/-- The `generate_keywords` method.  The job-description and user-experience
keyword extractions only feed the enrichment prompt (represented by the opaque
`ai` outcome) and the ignored argument of `_build_keyword_profile`. -/
def generate_keywords (job_role : Str) (job_description : Str)
    (experience_keywords : List String) (_target_company : String)
    (ai : AIOutcome) (parseJson : Str → Option EnrichedKeywords) : KeywordProfile :=
  let role_key := normalize_role job_role
  let base := get_base_keywords role_key
  let _jd := if job_description.isEmpty then [] else extract_jd_keywords job_description
  let enriched := ai_enrich_keywords base ai parseJson
  build_keyword_profile job_role enriched experience_keywords

/-- An accumulating conditional half-point fold equals the matched count times one half. -/
theorem foldl_half_points (P : String → Bool) (l : List String) (a : ℚ) :
    l.foldl (fun acc w => if P w then acc + (1/2 : ℚ) else acc) a
      = a + (l.countP P : ℚ) * (1/2) := by
  induction l generalizing a with
  | nil => simp
  | cons x xs ih =>
    rw [List.foldl_cons, List.countP_cons]
    by_cases h : P x
    · rw [if_pos h, ih]
      simp only [h, if_true]
      push_cast
      ring
    · rw [if_neg h, ih]
      simp [h]

/-- Floor of half a natural number is its integer half. -/
theorem floor_nat_half (n : ℕ) : ⌊(n : ℚ) * (1/2)⌋ = (n / 2 : ℕ) := by
  have h1 : (n : ℚ) * (1/2) = ((n : ℤ) : ℚ) / ((2 : ℕ) : ℚ) := by push_cast; ring
  rw [h1, Rat.floor_intCast_div_natCast]
  omega

/-- C2 (amended): the letter grade is the deterministic fixed threshold step function
of the overall score (≥95 A+, ≥90 A, ≥85 A−, ≥80 B+, ≥75 B, ≥70 B−, ≥60 C, else F);
in particular an overall of exactly 90.0 yields "A" and 89.9 yields "A−" (89.9 sits
in the ≥85 band, so the claim's example value "B+" is impossible). -/
theorem C2_grade_ladder (s : ℚ) :
    (95 ≤ s → calculate_grade s = "A+")
  ∧ (90 ≤ s ∧ s < 95 → calculate_grade s = "A")
  ∧ (85 ≤ s ∧ s < 90 → calculate_grade s = "A-")
  ∧ (80 ≤ s ∧ s < 85 → calculate_grade s = "B+")
  ∧ (75 ≤ s ∧ s < 80 → calculate_grade s = "B")
  ∧ (70 ≤ s ∧ s < 75 → calculate_grade s = "B-")
  ∧ (60 ≤ s ∧ s < 70 → calculate_grade s = "C")
  ∧ (s < 60 → calculate_grade s = "F")
  ∧ calculate_grade 90 = "A" ∧ calculate_grade (899/10) = "A-" := by
  have g1 : 95 ≤ s → calculate_grade s = "A+" := by
    intro h; unfold calculate_grade; rw [if_pos h]
  have g2 : 90 ≤ s ∧ s < 95 → calculate_grade s = "A" := by
    rintro ⟨h1, h2⟩; unfold calculate_grade
    rw [if_neg (by linarith), if_pos h1]
  have g3 : 85 ≤ s ∧ s < 90 → calculate_grade s = "A-" := by
    rintro ⟨h1, h2⟩; unfold calculate_grade
    rw [if_neg (by linarith), if_neg (by linarith), if_pos h1]
  have g4 : 80 ≤ s ∧ s < 85 → calculate_grade s = "B+" := by
    rintro ⟨h1, h2⟩; unfold calculate_grade
    rw [if_neg (by linarith), if_neg (by linarith), if_neg (by linarith), if_pos h1]
  have g5 : 75 ≤ s ∧ s < 80 → calculate_grade s = "B" := by
    rintro ⟨h1, h2⟩; unfold calculate_grade
    rw [if_neg (by linarith), if_neg (by linarith), if_neg (by linarith), if_neg (by linarith),
      if_pos h1]
  have g6 : 70 ≤ s ∧ s < 75 → calculate_grade s = "B-" := by
    rintro ⟨h1, h2⟩; unfold calculate_grade
    rw [if_neg (by linarith), if_neg (by linarith), if_neg (by linarith), if_neg (by linarith),
      if_neg (by linarith), if_pos h1]
  have g7 : 60 ≤ s ∧ s < 70 → calculate_grade s = "C" := by
    rintro ⟨h1, h2⟩; unfold calculate_grade
    rw [if_neg (by linarith), if_neg (by linarith), if_neg (by linarith), if_neg (by linarith),
      if_neg (by linarith), if_neg (by linarith), if_pos h1]
  have g8 : s < 60 → calculate_grade s = "F" := by
    intro h; unfold calculate_grade
    rw [if_neg (by linarith), if_neg (by linarith), if_neg (by linarith), if_neg (by linarith),
      if_neg (by linarith), if_neg (by linarith), if_neg (by linarith)]
  exact ⟨g1, g2, g3, g4, g5, g6, g7, g8, by norm_num [calculate_grade],
    by norm_num [calculate_grade]⟩

/-- Witness for C2 at a concrete overall score. -/
theorem C2_grade_ladder_witness : calculate_grade 92 = "A" :=
  (C2_grade_ladder 92).2.1 ⟨by norm_num, by norm_num⟩

/-- Counterexample to C2 as stated: an overall of 89.9 is graded "A-" by
`_calculate_grade`, not "B+" as the claim asserts. -/
theorem C2_counterexample :
    calculate_grade (899/10) = "A-" ∧ ¬ calculate_grade (899/10) = "B+" := by
  have h : calculate_grade (899/10) = "A-" := by norm_num [calculate_grade]
  exact ⟨h, by rw [h]; decide⟩

/-- C10: the fluff deduction of the content score equals `floor(0.5 * d)` where `d`
is the number of distinct fluff buzzwords contained in the lowered document, the
no-fluff summand of `_analyze_content` equals `5` minus that deduction, and with
exactly one distinct fluff buzzword the deduction is zero and the full 5 points
are awarded. -/
theorem C10_fluff_deduction (content : Str) :
    check_fluff_words content
      = ((fluff_words.countP (fun w => containsSub (lowerL content) w.data) / 2 : ℕ) : ℤ)
  ∧ no_fluff_part content
      = 5 - ((fluff_words.countP (fun w => containsSub (lowerL content) w.data) / 2 : ℕ) : ℚ)
  ∧ (fluff_words.countP (fun w => containsSub (lowerL content) w.data) = 1 →
      no_fluff_part content = 5) := by
  have hcount : fluff_words.countP (fun w => containsSub (lowerL content) w.data)
      ≤ fluff_words.length := List.countP_le_length _
  have hlen : fluff_words.length = 9 := by decide
  have hchk : check_fluff_words content
      = ((fluff_words.countP (fun w => containsSub (lowerL content) w.data) / 2 : ℕ) : ℤ) := by
    unfold check_fluff_words
    rw [foldl_half_points, zero_add, floor_nat_half]
  have hle : (fluff_words.countP (fun w => containsSub (lowerL content) w.data) / 2 : ℕ) ≤ 4 := by
    omega
  have hc4 : ((fluff_words.countP (fun w => containsSub (lowerL content) w.data) / 2 : ℕ) : ℚ)
      ≤ 4 := by exact_mod_cast hle
  have hcast : ((((fluff_words.countP (fun w => containsSub (lowerL content) w.data) / 2 : ℕ) :
      ℤ)) : ℚ) = ((fluff_words.countP (fun w => containsSub (lowerL content) w.data) / 2 : ℕ) :
      ℚ) := by norm_cast
  have hnf : no_fluff_part content
      = 5 - ((fluff_words.countP (fun w => containsSub (lowerL content) w.data) / 2 : ℕ) : ℚ) := by
    unfold no_fluff_part
    rw [hchk, hcast, max_eq_right (by linarith)]
  refine ⟨hchk, hnf, fun h1 => ?_⟩
  rw [hnf, h1]
  norm_num

/-- Witness for C10 on a document containing exactly one fluff buzzword. -/
theorem C10_fluff_deduction_witness : no_fluff_part "synergy with the team".data = 5 :=
  (C10_fluff_deduction "synergy with the team".data).2.2 (by decide)

/-- Every keyword of the four predefined tiers. -/
def allTierKeywords : List String := (CRITICAL_KEYWORDS_2025.map KwTier.keywords).flatten

/-- On a document with zero occurrences of every tier keyword, the keyword score is
2 (AI/ML floor) + min(10, 7.35/2): each tier-4 keyword earns 70% of weight 1.5 at
count zero because its minimum target is 1. -/
theorem keywords_score_all_zero (st : AState) (content : Str)
    (h : ∀ kw ∈ allTierKeywords, countSub (lowerL content) (lowerL kw.data) = 0) :
    (analyze_keywords st content).1 = 227/40 := by
  simp only [analyze_keywords, tierScore, CRITICAL_KEYWORDS_2025, kwContribution,
    List.foldl_cons, List.foldl_nil, List.map_cons, List.map_nil]
  rw [h "AI" (by decide), h "ML" (by decide), h "LLM" (by decide), h "GenAI" (by decide),
    h "RAG" (by decide), h "Vector Database" (by decide), h "Langchain" (by decide),
    h "Real-time" (by decide), h "Streaming" (by decide), h "Event-driven" (by decide),
    h "CDC" (by decide), h "Kafka" (by decide), h "Kinesis" (by decide),
    h "AWS" (by decide), h "Cloud-native" (by decide), h "Serverless" (by decide),
    h "Docker" (by decide), h "Kubernetes" (by decide), h "dbt" (by decide),
    h "Airflow" (by decide), h "Spark" (by decide),
    h "Python" (by decide), h "SQL" (by decide), h "ETL" (by decide),
    h "Data Pipeline" (by decide), h "Data Warehouse" (by decide),
    h "Data Lake" (by decide), h "PostgreSQL" (by decide)]
  simp only [List.filter_cons, List.filter_nil,
    show (!decide ("Real-Time" = "AI/ML")) = true from by decide,
    show (!decide ("Cloud/Modern Stack" = "AI/ML")) = true from by decide,
    show (!decide ("Core Skills" = "AI/ML")) = true from by decide,
    if_true, List.map_cons, List.map_nil, List.sum_cons, List.sum_nil, List.lookup]
  simp only [eq_false (show ¬ ("Real-Time" = "AI/ML") from by decide),
    eq_false (show ¬ ("Cloud/Modern Stack" = "AI/ML") from by decide),
    eq_false (show ¬ ("Core Skills" = "AI/ML") from by decide),
    if_false, List.map_cons, List.map_nil, List.sum_cons, List.sum_nil]
  norm_num [min_def]

/-- Counterexample to C7 as stated: the empty rendered document contains zero
occurrences of every tier keyword, yet its keywords sub-score is 5.675, not 2.0 —
each of the seven tier-4 keywords has minimum target 1, so a zero count is
"exactly one below minimum" and earns 70% of weight 1.5. -/
theorem C7_counterexample :
    (∀ kw ∈ allTierKeywords, countSub (lowerL []) (lowerL kw.data) = 0)
  ∧ (analyze_keywords AState.init []).1 = 227/40
  ∧ ¬ (analyze_keywords AState.init []).1 = 2 := by
  have hz : ∀ kw ∈ allTierKeywords, countSub (lowerL []) (lowerL kw.data) = 0 := by decide
  have hv := keywords_score_all_zero AState.init [] hz
  refine ⟨hz, hv, ?_⟩
  rw [hv]
  norm_num

/-- C7 (amended): for every rendered document containing zero occurrences of every
keyword in all four predefined tiers, the keywords sub-score equals 5.675 =
2 (AI/ML floor) + min(10, 7.35/2), the 7.35 coming from the seven tier-4
keywords earning 70% of weight 1.5 each at count zero (one below minimum 1). -/
theorem C7_amended (st : AState) (content : Str)
    (h : ∀ kw ∈ allTierKeywords, countSub (lowerL content) (lowerL kw.data) = 0) :
    (analyze_keywords st content).1 = 227/40 :=
  keywords_score_all_zero st content h

/-- Witness for C7 (amended) on a concrete keyword-free document. -/
theorem C7_amended_witness : (analyze_keywords AState.init "zzz".data).1 = 227/40 :=
  C7_amended AState.init "zzz".data (by decide)

/-- Stripping the empty string gives the empty string. -/
theorem stripL_nil : stripL [] = [] := rfl

/-- An eligible text (trimmed length at least 10) does not trigger the short-circuit
branch of `optimize_content`. -/
theorem not_short_of_len (content : Str) (h : 10 ≤ (stripL content).length) :
    ¬ (content.isEmpty = true ∨ (stripL content).length < 10) := by
  rintro (he | hl)
  · rw [List.isEmpty_iff.mp he] at h
    simp [stripL_nil] at h
  · omega

/-- C3: the validation gate accepts a candidate iff (a) when the original contains at
least one number token, at least 80% of those tokens reappear verbatim in the
candidate, and (b) the candidate length lies within `[0.4x, 3x]` of the original
length; and whenever the gate rejects, `optimize_content` returns the original
text unchanged as the optimized result. -/
theorem C3_validation_gate :
    (∀ original optimized : Str,
      validate_simple original optimized = true ↔
        ((digitRuns original ≠ [] →
            4 * (digitRuns original).length ≤
              5 * ((digitRuns original).filter (fun n => containsSub optimized n)).length)
          ∧ 2 * original.length ≤ 5 * optimized.length
          ∧ optimized.length ≤ 3 * original.length))
  ∧ (∀ (st : OptState) (content : Str) (section_type : String) (profile : KeywordProfile)
      (techs : List String) (resp : Str),
      ¬ validate_simple content (clean_output resp section_type) = true →
      (optimize_content st content section_type profile techs
        (AIOutcome.returns resp)).1.optimized = content) := by
  constructor
  · intro original optimized
    simp only [validate_simple]
    split_ifs with h1 h2
    · simp only [Bool.false_eq_true, false_iff]
      rintro ⟨pa, _, _⟩
      have hne : digitRuns original ≠ [] := by
        intro he
        rw [he] at h1
        simp at h1
      have := pa hne
      omega
    · simp only [Bool.false_eq_true, false_iff]
      rintro ⟨_, pb, pc⟩
      omega
    · simp only [true_iff]
      push_neg at h1 h2
      refine ⟨fun hne => ?_, by omega, by omega⟩
      rcases Decidable.em ((digitRuns original).isEmpty = true) with he | he
      · exact absurd (List.isEmpty_iff.mp he) hne
      · have := h1 (by simpa using he)
        omega
  · intro st content section_type profile techs resp hv
    by_cases hc : (content.isEmpty = true ∨ (stripL content).length < 10)
    · simp only [optimize_content, eq_true_intro hc, if_true]
    · simp only [optimize_content, eq_false hc, if_false]
      by_cases hr : (resp.isEmpty = true ∨ (stripL resp).isEmpty = true)
      · simp only [eq_true_intro hr, if_true]
      · simp only [eq_false hr, if_false, eq_true_intro hv, if_true]

set_option maxRecDepth 8000 in
/-- Witness for C3: a rewrite that loses the original's only number token is
rejected and the caller hands back the original text. -/
theorem C3_validation_gate_witness :
    (optimize_content OptState.init "Shipped 1234567 units".data "summary"
      ⟨"r", [], [], [], [], [], []⟩ [] (AIOutcome.returns "Shipped many units".data)).1.optimized
      = "Shipped 1234567 units".data :=
  C3_validation_gate.2 OptState.init "Shipped 1234567 units".data "summary"
    ⟨"r", [], [], [], [], [], []⟩ [] "Shipped many units".data (by decide)

/-- C8: `optimize_content` never fails its caller — when the external collaborator
raises, the result keeps the original text and reports the failure only through
the improvement tag `"Error: ..."`; when it returns an empty (or all-whitespace)
response, the result keeps the original text with tag `"No AI response"`. -/
theorem C8_collaborator_failure_recovered (st : OptState) (content : Str)
    (section_type : String) (profile : KeywordProfile) (techs : List String) :
    (∀ msg : String,
      (optimize_content st content section_type profile techs
        (AIOutcome.raises msg)).1.optimized = content
      ∧ (10 ≤ (stripL content).length →
          (optimize_content st content section_type profile techs
            (AIOutcome.raises msg)).1.improvements = ["Error: " ++ msg.take 40]))
  ∧ (∀ resp : Str, (stripL resp).isEmpty = true →
      (optimize_content st content section_type profile techs
        (AIOutcome.returns resp)).1.optimized = content
      ∧ (10 ≤ (stripL content).length →
          (optimize_content st content section_type profile techs
            (AIOutcome.returns resp)).1.improvements = ["No AI response"])) := by
  constructor
  · intro msg
    by_cases hc : (content.isEmpty = true ∨ (stripL content).length < 10)
    · constructor
      · simp only [optimize_content, eq_true_intro hc, if_true]
      · intro h10
        exact absurd hc (not_short_of_len content h10)
    · constructor
      · simp only [optimize_content, eq_false hc, if_false]
      · intro _
        simp only [optimize_content, eq_false hc, if_false]
  · intro resp hresp
    have hr : (resp.isEmpty = true ∨ (stripL resp).isEmpty = true) := Or.inr hresp
    by_cases hc : (content.isEmpty = true ∨ (stripL content).length < 10)
    · constructor
      · simp only [optimize_content, eq_true_intro hc, if_true]
      · intro h10
        exact absurd hc (not_short_of_len content h10)
    · constructor
      · simp only [optimize_content, eq_false hc, if_false, eq_true_intro hr, if_true]
      · intro _
        simp only [optimize_content, eq_false hc, if_false, eq_true_intro hr, if_true]

set_option maxRecDepth 8000 in
/-- Witness for C8 at a concrete raising collaborator and a concrete empty response. -/
theorem C8_collaborator_failure_recovered_witness :
    (optimize_content OptState.init "Managed 7 analysts daily".data "summary"
      ⟨"r", [], [], [], [], [], []⟩ [] (AIOutcome.raises "boom")).1.optimized
      = "Managed 7 analysts daily".data
  ∧ (optimize_content OptState.init "Managed 7 analysts daily".data "summary"
      ⟨"r", [], [], [], [], [], []⟩ [] (AIOutcome.raises "boom")).1.improvements
      = ["Error: boom"]
  ∧ (optimize_content OptState.init "Managed 7 analysts daily".data "summary"
      ⟨"r", [], [], [], [], [], []⟩ [] (AIOutcome.returns "  ".data)).1.optimized
      = "Managed 7 analysts daily".data :=
  ⟨((C8_collaborator_failure_recovered OptState.init "Managed 7 analysts daily".data "summary"
      ⟨"r", [], [], [], [], [], []⟩ []).1 "boom").1,
   by
    have h := ((C8_collaborator_failure_recovered OptState.init
      "Managed 7 analysts daily".data "summary" ⟨"r", [], [], [], [], [], []⟩ []).1 "boom").2
      (by decide)
    simpa using h,
   ((C8_collaborator_failure_recovered OptState.init "Managed 7 analysts daily".data "summary"
      ⟨"r", [], [], [], [], [], []⟩ []).2 "  ".data (by decide)).1⟩

set_option maxRecDepth 8000 in
/-- Counterexample to C4 as stated: a candidate that preserves only 4 of the 5
number tokens of the original (exactly the 80% threshold) is accepted and returned
as the optimized text, yet the token "50" of the original does not appear in it. -/
theorem C4_counterexample :
    (optimize_content OptState.init "10 20 30 40 50".data "summary"
      ⟨"r", [], [], [], [], [], []⟩ []
      (AIOutcome.returns "10 20 30 40 xx".data)).1.optimized = "10 20 30 40 xx".data
  ∧ ¬ (optimize_content OptState.init "10 20 30 40 50".data "summary"
      ⟨"r", [], [], [], [], [], []⟩ []
      (AIOutcome.returns "10 20 30 40 xx".data)).1.optimized = "10 20 30 40 50".data
  ∧ "50".data ∈ digitRuns "10 20 30 40 50".data
  ∧ containsSub "10 20 30 40 xx".data "50".data = false := by
  refine ⟨by decide, by decide, by decide, by decide⟩

/-- C4 (amended): for every call to `optimize_content` whose candidate rewrite is
accepted (validation passes and the cleaned candidate is returned as the optimized
text), at least 80% of the number tokens of the original appear verbatim in the
optimized text — the gate guarantees no more than that, so up to 20% of the tokens
may be dropped. -/
theorem C4_amended (st : OptState) (content : Str) (section_type : String)
    (profile : KeywordProfile) (techs : List String) (resp : Str)
    (h10 : 10 ≤ (stripL content).length)
    (hne : (stripL resp).isEmpty = false)
    (hv : validate_simple content (clean_output resp section_type) = true) :
    (optimize_content st content section_type profile techs
      (AIOutcome.returns resp)).1.optimized = clean_output resp section_type
  ∧ 4 * (digitRuns content).length ≤
      5 * ((digitRuns content).filter (fun n =>
        containsSub (clean_output resp section_type) n)).length := by
  have hc := not_short_of_len content h10
  have hr : ¬ (resp.isEmpty = true ∨ (stripL resp).isEmpty = true) := by
    rintro (he | he)
    · rw [List.isEmpty_iff.mp he] at hne
      rw [stripL_nil] at hne
      simp at hne
    · rw [he] at hne
      simp at hne
  constructor
  · simp only [optimize_content, eq_false hc, if_false, eq_false hr,
      eq_false (not_not_intro hv), if_false]
  · by_cases hA : (¬ (digitRuns content).isEmpty = true ∧
        5 * ((digitRuns content).filter (fun n =>
          containsSub (clean_output resp section_type) n)).length
          < 4 * (digitRuns content).length)
    · exfalso
      simp only [validate_simple] at hv
      rw [if_pos hA] at hv
      simp at hv
    · by_cases hemp : digitRuns content = []
      · rw [hemp]
        simp
      · have h1' : ¬ ((digitRuns content).isEmpty = true) := by
          simp [List.isEmpty_iff, hemp]
        have hB : ¬ (5 * ((digitRuns content).filter (fun n =>
            containsSub (clean_output resp section_type) n)).length
            < 4 * (digitRuns content).length) := fun hB => hA ⟨h1', hB⟩
        omega

set_option maxRecDepth 8000 in
/-- Witness for C4 (amended) at a concrete accepted rewrite. -/
theorem C4_amended_witness :
    (optimize_content OptState.init "Shipped 12 units to 34 cities".data "summary"
      ⟨"r", [], [], [], [], [], []⟩ []
      (AIOutcome.returns "Delivered 12 units to 34 cities fast".data)).1.optimized
      = clean_output "Delivered 12 units to 34 cities fast".data "summary"
  ∧ 4 * (digitRuns "Shipped 12 units to 34 cities".data).length ≤
      5 * ((digitRuns "Shipped 12 units to 34 cities".data).filter (fun n =>
        containsSub (clean_output "Delivered 12 units to 34 cities fast".data "summary")
          n)).length :=
  C4_amended OptState.init "Shipped 12 units to 34 cities".data "summary"
    ⟨"r", [], [], [], [], [], []⟩ [] "Delivered 12 units to 34 cities fast".data
    (by decide) (by decide) (by decide)

/-- The role bucket selected for any input role is one of the three database entries. -/
theorem get_base_cases (job_role : Str) :
    get_base_keywords (normalize_role job_role) = dataEngineerKW
  ∨ get_base_keywords (normalize_role job_role) = softwareEngineerKW
  ∨ get_base_keywords (normalize_role job_role) = mlEngineerKW := by
  unfold normalize_role get_base_keywords
  split_ifs <;> simp_all

/-- C9: whenever the external generation response has no locatable structured object
(the call raised, no brace span exists, or parsing the span fails), `generate_keywords`
returns the deterministic fallback profile of the role's database bucket; that profile
always has non-empty primary, secondary and technical keyword lists and the fixed
3-category power-verb starter set, so the rewrite engine never receives an empty
keyword profile. -/
theorem C9_fallback_profile (job_role job_description : Str) (expK : List String)
    (company : String) (ai : AIOutcome) (parseJson : Str → Option EnrichedKeywords)
    (h : (∃ msg, ai = AIOutcome.raises msg)
       ∨ (∃ resp, ai = AIOutcome.returns resp ∧ braceSpan resp = none)
       ∨ (∃ resp sp, ai = AIOutcome.returns resp ∧ braceSpan resp = some sp
            ∧ parseJson sp = none)) :
    generate_keywords job_role job_description expK company ai parseJson
      = build_keyword_profile job_role
          (fallback_keywords (get_base_keywords (normalize_role job_role))) expK
  ∧ (generate_keywords job_role job_description expK company ai parseJson).primary_keywords ≠ []
  ∧ (generate_keywords job_role job_description expK company ai parseJson).secondary_keywords ≠ []
  ∧ (generate_keywords job_role job_description expK company ai parseJson).technical_skills ≠ []
  ∧ (generate_keywords job_role job_description expK company ai parseJson).power_verbs
      = [("Leadership", ["Led", "Spearheaded", "Drove"]),
         ("Technical", ["Architected", "Engineered", "Built", "Designed"]),
         ("Optimization", ["Optimized", "Enhanced", "Streamlined"])] := by
  have hfb : generate_keywords job_role job_description expK company ai parseJson
      = build_keyword_profile job_role
          (fallback_keywords (get_base_keywords (normalize_role job_role))) expK := by
    rcases h with ⟨msg, rfl⟩ | ⟨resp, rfl, hbs⟩ | ⟨resp, sp, rfl, hbs, hp⟩
    · rfl
    · simp only [generate_keywords, ai_enrich_keywords, hbs]
    · simp only [generate_keywords, ai_enrich_keywords, hbs, hp]
  rw [hfb]
  rcases get_base_cases job_role with hb | hb | hb <;>
    rw [hb] <;>
    refine ⟨rfl, ?_, ?_, ?_, ?_⟩ <;>
    simp [build_keyword_profile, fallback_keywords, dataEngineerKW, softwareEngineerKW,
      mlEngineerKW]

/-- Witness for C9: a raising collaborator on the data-engineer role yields the
non-empty fallback profile. -/
theorem C9_fallback_profile_witness :
    (generate_keywords "Data Engineer".data "".data [] "FAANG" (AIOutcome.raises "down")
      (fun _ => none)).primary_keywords ≠ [] :=
  (C9_fallback_profile "Data Engineer".data "".data [] "FAANG" (AIOutcome.raises "down")
    (fun _ => none) (Or.inl ⟨"down", rfl⟩)).2.1

/-- Occurrence count of a key in a key list. -/
def countOcc (ks : List Str) (q : Str) : ℕ := ks.countP (fun x => x = q)

/-- Occurrence count distributes over cons. -/
theorem countOcc_cons (a : Str) (ks : List Str) (q : Str) :
    countOcc (a :: ks) q = countOcc ks q + (if a = q then 1 else 0) := by
  unfold countOcc
  rw [List.countP_cons]
  by_cases h : a = q <;> simp [h]

/-- A key absent from the list has occurrence count zero. -/
theorem countOcc_eq_zero {ks : List Str} {q : Str} (h : ¬ q ∈ ks) : countOcc ks q = 0 := by
  unfold countOcc
  rw [List.countP_eq_zero]
  intro a ha
  simp only [decide_eq_true_eq]
  exact fun he => h (he ▸ ha)

/-- A member of a duplicate-free list has occurrence count one. -/
theorem countOcc_eq_one {ks : List Str} {q : Str} (hnd : ks.Nodup) (h : q ∈ ks) :
    countOcc ks q = 1 := by
  induction ks with
  | nil => cases h
  | cons x xs ih =>
    rw [List.nodup_cons] at hnd
    rcases List.mem_cons.mp h with he | hm
    · subst he
      rw [countOcc_cons, countOcc_eq_zero hnd.1, if_pos rfl]
    · have hxq : ¬ x = q := fun he => hnd.1 (he ▸ hm)
      rw [countOcc_cons, ih hnd.2 hm, if_neg hxq]

/-- Incrementing one counter key adds one exactly at that key. -/
theorem getAssoc_incKey (m : List (Str × ℕ)) (k q : Str) :
    getAssoc (incKey m k) q 0 = getAssoc m q 0 + (if k = q then 1 else 0) := by
  induction m with
  | nil =>
    by_cases h : k = q <;> simp [incKey, getAssoc, h]
  | cons p rest ih =>
    obtain ⟨k', v⟩ := p
    by_cases h1 : k' = k
    · subst h1
      by_cases h2 : k' = q
      · subst h2
        simp [incKey, getAssoc]
      · simp [incKey, getAssoc, h2]
    · by_cases h2 : k' = q
      · subst h2
        have h3 : ¬ k = k' := fun h => h1 h.symm
        simp [incKey, getAssoc, h1, h3]
      · simp [incKey, getAssoc, h1, h2, ih]

/-- Incrementing every key of a list adds the occurrence count of each key. -/
theorem getAssoc_incAll (m : List (Str × ℕ)) (ks : List Str) (q : Str) :
    getAssoc (incAll m ks) q 0 = getAssoc m q 0 + countOcc ks q := by
  induction ks generalizing m with
  | nil => simp [incAll, countOcc]
  | cons a ks ih =>
    have hstep : incAll m (a :: ks) = incAll (incKey m a) ks := rfl
    rw [hstep, ih, getAssoc_incKey, countOcc_cons]
    omega

/-- The lowered forms of the full power-verb table are pairwise distinct. -/
theorem all_verbs_lower_nodup : (ALL_POWER_VERBS.map (fun v => lowerL v.data)).Nodup := by
  decide

/-- The lowered forms of the verbs extracted from any text are pairwise distinct. -/
theorem extract_lower_nodup (content : Str) :
    ((extract_all_verbs content).map (fun v => lowerL v.data)).Nodup := by
  refine all_verbs_lower_nodup.sublist ?_
  exact (List.filter_sublist _).map _

/-- The lowered forms of the newly-introduced verbs of an accepted text are
pairwise distinct. -/
theorem new_lower_nodup (origLowers : List Str) (optimized : Str) :
    (((extract_all_verbs optimized).filter (fun v => ¬ lowerL v.data ∈ origLowers)).map
      (fun u => lowerL u.data)).Nodup := by
  refine all_verbs_lower_nodup.sublist ?_
  refine List.Sublist.map _ ?_
  have h1 : List.Sublist
      ((extract_all_verbs optimized).filter (fun v => ¬ lowerL v.data ∈ origLowers))
      (extract_all_verbs optimized) := List.filter_sublist _
  have h2 : List.Sublist (extract_all_verbs optimized) ALL_POWER_VERBS := by
    unfold extract_all_verbs
    exact List.filter_sublist _
  exact h1.trans h2

/-- Pre-registration adds the occurrence count of each lowered original verb. -/
theorem getAssoc_register_orig (st : OptState) (content : Str) (q : Str) :
    getAssoc (register_orig_verbs st content).used_verbs q 0
      = getAssoc st.used_verbs q 0
        + countOcc ((extract_all_verbs content).map (fun u => lowerL u.data)) q := by
  simp [register_orig_verbs, getAssoc_incAll]

/-- A verb found in the text contributes exactly one to the lowered key list. -/
theorem count_lower_one {content : Str} {v : String} (hv : v ∈ extract_all_verbs content) :
    countOcc ((extract_all_verbs content).map (fun u => lowerL u.data)) (lowerL v.data) = 1 :=
  countOcc_eq_one (extract_lower_nodup content) (List.mem_map_of_mem _ hv)

/-- C5: for every eligible call to `optimize_content` (trimmed length ≥ 10), every
power verb occurring anywhere in the original has its usage count in the shared
state incremented by one whatever the outcome (the pre-registration happens before
the generation call); power verbs newly introduced by the accepted candidate are
added only on validation success (also by one); a rejected or failed call leaves
the state exactly at the pre-registration of the original's verbs; and the bullet
counters are never touched by `optimize_content`. -/
theorem C5_verb_state_bookkeeping (st : OptState) (content : Str) (section_type : String)
    (profile : KeywordProfile) (techs : List String) (ai : AIOutcome)
    (h10 : 10 ≤ (stripL content).length) :
    ((optimize_content st content section_type profile techs ai).2.bullets_total
        = st.bullets_total
      ∧ (optimize_content st content section_type profile techs ai).2.bullets_with_metrics
        = st.bullets_with_metrics)
  ∧ (∀ v ∈ extract_all_verbs content,
      getAssoc (optimize_content st content section_type profile techs ai).2.used_verbs
          (lowerL v.data) 0
        = getAssoc st.used_verbs (lowerL v.data) 0 + 1)
  ∧ (∀ resp, ai = AIOutcome.returns resp →
      ¬ (resp.isEmpty = true ∨ (stripL resp).isEmpty = true) →
      validate_simple content (clean_output resp section_type) = true →
      ∀ v ∈ extract_all_verbs (clean_output resp section_type),
        ¬ lowerL v.data ∈ (extract_all_verbs content).map (fun u => lowerL u.data) →
        getAssoc (optimize_content st content section_type profile techs ai).2.used_verbs
            (lowerL v.data) 0
          = getAssoc st.used_verbs (lowerL v.data) 0 + 1)
  ∧ ((∃ msg, ai = AIOutcome.raises msg) ∨
      (∃ resp, ai = AIOutcome.returns resp ∧
        ((resp.isEmpty = true ∨ (stripL resp).isEmpty = true)
          ∨ ¬ validate_simple content (clean_output resp section_type) = true)) →
      (optimize_content st content section_type profile techs ai).2
        = register_orig_verbs st content) := by
  have hc := not_short_of_len content h10
  cases ai with
  | raises msg =>
    have hred : (optimize_content st content section_type profile techs
        (AIOutcome.raises msg)).2 = register_orig_verbs st content := by
      simp only [optimize_content, eq_false hc, if_false]
    refine ⟨⟨?_, ?_⟩, ?_, ?_, fun _ => hred⟩
    · rw [hred]; simp [register_orig_verbs]
    · rw [hred]; simp [register_orig_verbs]
    · intro v hv
      rw [hred, getAssoc_register_orig, count_lower_one hv]
    · intro resp heq
      exact absurd heq (by simp)
  | returns resp =>
    by_cases hr : (resp.isEmpty = true ∨ (stripL resp).isEmpty = true)
    · have hred : (optimize_content st content section_type profile techs
          (AIOutcome.returns resp)).2 = register_orig_verbs st content := by
        simp only [optimize_content, eq_false hc, if_false, eq_true_intro hr, if_true]
      refine ⟨⟨?_, ?_⟩, ?_, ?_, fun _ => hred⟩
      · rw [hred]; simp [register_orig_verbs]
      · rw [hred]; simp [register_orig_verbs]
      · intro v hv
        rw [hred, getAssoc_register_orig, count_lower_one hv]
      · intro resp' heq hnr
        cases heq
        exact absurd hr hnr
    · by_cases hvs : validate_simple content (clean_output resp section_type) = true
      · have hred : (optimize_content st content section_type profile techs
            (AIOutcome.returns resp)).2
            = register_new_verbs (register_orig_verbs st content)
                ((extract_all_verbs content).map (fun u => lowerL u.data))
                (clean_output resp section_type) := by
          simp only [optimize_content, eq_false hc, if_false, eq_false hr,
            eq_false (not_not_intro hvs), if_false]
        have hused : (optimize_content st content section_type profile techs
            (AIOutcome.returns resp)).2.used_verbs
            = incAll (incAll st.used_verbs
                ((extract_all_verbs content).map (fun u => lowerL u.data)))
              (((extract_all_verbs (clean_output resp section_type)).filter
                  (fun v => ¬ lowerL v.data ∈
                    (extract_all_verbs content).map (fun u => lowerL u.data))).map
                (fun u => lowerL u.data)) := by
          rw [hred]
          simp [register_new_verbs, register_orig_verbs]
        refine ⟨⟨?_, ?_⟩, ?_, ?_, ?_⟩
        · rw [hred]; simp [register_new_verbs, register_orig_verbs]
        · rw [hred]; simp [register_new_verbs, register_orig_verbs]
        · intro v hv
          rw [hused, getAssoc_incAll, getAssoc_incAll, count_lower_one hv]
          have hz : countOcc (((extract_all_verbs (clean_output resp section_type)).filter
              (fun v => ¬ lowerL v.data ∈
                (extract_all_verbs content).map (fun u => lowerL u.data))).map
              (fun u => lowerL u.data)) (lowerL v.data) = 0 := by
            refine countOcc_eq_zero ?_
            intro hmem
            obtain ⟨u, hu, hequ⟩ := List.mem_map.mp hmem
            obtain ⟨_, hcond⟩ := List.mem_filter.mp hu
            have : ¬ lowerL u.data ∈ (extract_all_verbs content).map
                (fun u => lowerL u.data) := by simpa using hcond
            exact this (hequ ▸ List.mem_map_of_mem _ hv)
          rw [hz]
        · intro resp' heq hnr hval v hv hnew
          cases heq
          rw [hused, getAssoc_incAll, getAssoc_incAll]
          have hz : countOcc ((extract_all_verbs content).map (fun u => lowerL u.data))
              (lowerL v.data) = 0 := countOcc_eq_zero hnew
          have ho : countOcc (((extract_all_verbs (clean_output resp section_type)).filter
              (fun v => ¬ lowerL v.data ∈
                (extract_all_verbs content).map (fun u => lowerL u.data))).map
              (fun u => lowerL u.data)) (lowerL v.data) = 1 := by
            refine countOcc_eq_one (new_lower_nodup _ _) ?_
            refine List.mem_map_of_mem _ ?_
            refine List.mem_filter.mpr ⟨hv, ?_⟩
            simpa using hnew
          rw [hz, ho]
        · rintro (⟨msg, heq⟩ | ⟨resp', heq, hcond⟩)
          · exact absurd heq (by simp)
          · cases heq
            rcases hcond with hcond | hcond
            · exact absurd hcond hr
            · exact absurd hvs hcond
      · have hred : (optimize_content st content section_type profile techs
            (AIOutcome.returns resp)).2 = register_orig_verbs st content := by
          simp only [optimize_content, eq_false hc, if_false, eq_false hr, if_false,
            eq_true_intro hvs, eq_true_intro (show ¬ validate_simple content
              (clean_output resp section_type) = true from hvs), if_true]
        refine ⟨⟨?_, ?_⟩, ?_, ?_, fun _ => hred⟩
        · rw [hred]; simp [register_orig_verbs]
        · rw [hred]; simp [register_orig_verbs]
        · intro v hv
          rw [hred, getAssoc_register_orig, count_lower_one hv]
        · intro resp' heq hnr hval
          cases heq
          exact absurd hval hvs

set_option maxRecDepth 8000 in
/-- Witness for C5: after a failing generation call on a bullet led by "Led", the
state's count for "led" has been incremented anyway. -/
theorem C5_verb_state_bookkeeping_witness :
    getAssoc (optimize_content OptState.init "Led the team to 5 wins".data "summary"
        ⟨"r", [], [], [], [], [], []⟩ [] (AIOutcome.raises "x")).2.used_verbs
      (lowerL "Led".data) 0
    = getAssoc OptState.init.used_verbs (lowerL "Led".data) 0 + 1 :=
  (C5_verb_state_bookkeeping OptState.init "Led the team to 5 wins".data "summary"
    ⟨"r", [], [], [], [], [], []⟩ [] (AIOutcome.raises "x") (by decide)).2.1
    "Led" (by decide)

/-- The inserted element is a member afterwards. -/
theorem mem_insertUniq_self (l : List String) (x : String) : x ∈ insertUniq l x := by
  unfold insertUniq
  split_ifs with h
  · exact h
  · simp

/-- Insertion preserves membership. -/
theorem mem_insertUniq_of_mem {l : List String} {y : String} (x : String) (h : y ∈ l) :
    y ∈ insertUniq l x := by
  unfold insertUniq
  split_ifs
  · exact h
  · simp [h]

/-- Inserting a present element changes nothing. -/
theorem insertUniq_of_mem {l : List String} {x : String} (h : x ∈ l) : insertUniq l x = l := by
  unfold insertUniq
  exact if_pos h

/-- Batch insertion preserves membership. -/
theorem mem_insertAllUniq_of_mem {y : String} (v : List String) {l : List String}
    (h : y ∈ l) : y ∈ insertAllUniq l v := by
  induction v generalizing l with
  | nil => exact h
  | cons a v ih => exact ih (mem_insertUniq_of_mem a h)

/-- Batch insertion contains the inserted elements. -/
theorem mem_insertAllUniq_self {y : String} {v : List String} (l : List String)
    (h : y ∈ v) : y ∈ insertAllUniq l v := by
  induction v generalizing l with
  | nil => cases h
  | cons a v ih =>
    rcases List.mem_cons.mp h with he | hm
    · subst he
      exact mem_insertAllUniq_of_mem v (mem_insertUniq_self l y)
    · exact ih (insertUniq l a) hm

/-- Batch insertion of already-present elements changes nothing. -/
theorem insertAllUniq_of_subset {v l : List String} (h : ∀ y ∈ v, y ∈ l) :
    insertAllUniq l v = l := by
  induction v generalizing l with
  | nil => rfl
  | cons a v ih =>
    have hstep : insertAllUniq l (a :: v) = insertAllUniq (insertUniq l a) v := rfl
    rw [hstep, insertUniq_of_mem (h a (by simp))]
    exact ih (fun y hy => h y (by simp [hy]))

/-- Batch insertion is idempotent. -/
theorem insertAllUniq_idem (l v : List String) :
    insertAllUniq (insertAllUniq l v) v = insertAllUniq l v :=
  insertAllUniq_of_subset (fun _ hy => mem_insertAllUniq_self l hy)

set_option maxRecDepth 8000 in
/-- Counterexample to C6 as stated: on a document containing one ATS-killer
construct, the first analysis reports one issue and leaves a mutated analyzer
state behind; a second, identical analysis on the same instance reports two
issues (the `ats_issues` list is never reset), so the outputs of the two
identical calls differ. -/
theorem C6_counterexample :
    ((analyze_comprehensive AState.init [] "\\includegraphics".data).1.issuesFound = 1)
  ∧ ((analyze_comprehensive (analyze_comprehensive AState.init []
      "\\includegraphics".data).2 [] "\\includegraphics".data).1.issuesFound = 2)
  ∧ ¬ ((analyze_comprehensive (analyze_comprehensive AState.init []
      "\\includegraphics".data).2 [] "\\includegraphics".data).1
        = (analyze_comprehensive AState.init [] "\\includegraphics".data).1)
  ∧ ¬ ((analyze_comprehensive AState.init [] "\\includegraphics".data).2 = AState.init) := by
  have h1 : (analyze_comprehensive AState.init [] "\\includegraphics".data).1.issuesFound = 1 :=
    by decide
  have h2 : (analyze_comprehensive (analyze_comprehensive AState.init []
      "\\includegraphics".data).2 [] "\\includegraphics".data).1.issuesFound = 2 := by decide
  refine ⟨h1, h2, fun h => ?_, by decide⟩
  have h3 := congrArg Report.issuesFound h
  rw [h1, h2] at h3
  exact absurd h3 (by decide)

/-- The analyzer state after a full analysis: verb keys and sections grow by the
text's keys, and `section_lengths` (never written anywhere in the source) is
untouched. -/
theorem state_after_comprehensive (st : AState) (t : Str) :
    ((analyze_keywords ((analyze_format ((analyze_content st t).2) t).2) t).2).verbKeys
      = insertAllUniq st.verbKeys (verbKeysOf t)
  ∧ ((analyze_keywords ((analyze_format ((analyze_content st t).2) t).2) t).2).sectionsFound
      = insertAllUniq st.sectionsFound (sectionNamesOf t)
  ∧ ((analyze_keywords ((analyze_format ((analyze_content st t).2) t).2) t).2).sectionLengths
      = st.sectionLengths := by
  refine ⟨?_, ?_, ?_⟩ <;>
    simp [analyze_content, analyze_format, analyze_keywords, trackVerbs, identify_sections]

/-- The content score reads the prior state only through the verb keys it is about
to merge and through `section_lengths`. -/
theorem content_score_congr (st st' : AState) (t : Str)
    (hv : insertAllUniq st'.verbKeys (verbKeysOf t) = insertAllUniq st.verbKeys (verbKeysOf t))
    (hs : st'.sectionLengths = st.sectionLengths) :
    (analyze_content st' t).1 = (analyze_content st t).1 := by
  simp only [analyze_content, trackVerbs, hv, hs]

/-- The format score reads the prior state only through `sections_found`. -/
theorem format_score_congr (st st' : AState) (t : Str)
    (h : st'.sectionsFound = st.sectionsFound) :
    (analyze_format st' t).1 = (analyze_format st t).1 := by
  simp only [analyze_format, h]

/-- The keyword score is a pure function of the text. -/
theorem keywords_score_congr (st st' : AState) (t : Str) :
    (analyze_keywords st' t).1 = (analyze_keywords st t).1 := by
  simp only [analyze_keywords]

/-- The sections recorded by the content phase. -/
theorem content_sections_after (st : AState) (t : Str) :
    ((analyze_content st t).2).sectionsFound
      = insertAllUniq st.sectionsFound (sectionNamesOf t) := by
  simp [analyze_content, identify_sections]

/-- Two starting states that agree on the merged verb keys, the merged sections and
the section lengths produce the same `ResumeScore`. -/
theorem comprehensive_score_congr (st st' : AState) (content latexContent : Str)
    (hv : insertAllUniq st'.verbKeys
        (verbKeysOf (if latexContent.isEmpty then content else latexContent))
      = insertAllUniq st.verbKeys
        (verbKeysOf (if latexContent.isEmpty then content else latexContent)))
    (hs : st'.sectionLengths = st.sectionLengths)
    (hsec : insertAllUniq st'.sectionsFound
        (sectionNamesOf (if latexContent.isEmpty then content else latexContent))
      = insertAllUniq st.sectionsFound
        (sectionNamesOf (if latexContent.isEmpty then content else latexContent))) :
    (analyze_comprehensive st' content latexContent).1.score
      = (analyze_comprehensive st content latexContent).1.score := by
  have hc := content_score_congr st st'
    (if latexContent.isEmpty then content else latexContent) hv hs
  have hf := format_score_congr ((analyze_content st
      (if latexContent.isEmpty then content else latexContent)).2)
    ((analyze_content st' (if latexContent.isEmpty then content else latexContent)).2)
    (if latexContent.isEmpty then content else latexContent)
    (by rw [content_sections_after, content_sections_after, hsec])
  have hk := keywords_score_congr
    ((analyze_format ((analyze_content st
        (if latexContent.isEmpty then content else latexContent)).2)
      (if latexContent.isEmpty then content else latexContent)).2)
    ((analyze_format ((analyze_content st'
        (if latexContent.isEmpty then content else latexContent)).2)
      (if latexContent.isEmpty then content else latexContent)).2)
    (if latexContent.isEmpty then content else latexContent)
  simp only [analyze_comprehensive, hc, hf, hk]

/-- C6 (amended): `analyze_comprehensive` is not a pure function — its counters are
never reset and `sections_found`, `power_verb_usage` and `ats_issues` survive
between calls (see the counterexample) — but the `ResumeScore` it reports is
stable under repetition: calling it twice on the same analyzer instance with
identical input yields an identical `ResumeScore` (the non-score parts of the
report, such as the ATS issue count, may differ). -/
theorem C6_score_idempotent (st : AState) (content latexContent : Str) :
    ((analyze_comprehensive ((analyze_comprehensive st content latexContent).2)
        content latexContent).1).score
      = ((analyze_comprehensive st content latexContent).1).score := by
  obtain ⟨hvk, hsf, hsl⟩ := state_after_comprehensive st
    (if latexContent.isEmpty then content else latexContent)
  have hS : (analyze_comprehensive st content latexContent).2
      = (analyze_keywords ((analyze_format ((analyze_content st
          (if latexContent.isEmpty then content else latexContent)).2)
        (if latexContent.isEmpty then content else latexContent)).2)
        (if latexContent.isEmpty then content else latexContent)).2 := rfl
  refine comprehensive_score_congr st _ content latexContent ?_ ?_ ?_
  · rw [hS, hvk, insertAllUniq_idem]
  · rw [hS, hsl]
  · rw [hS, hsf, insertAllUniq_idem]

/-- Rounding to a tenth moves a rational by at most one twentieth. -/
theorem round1_sub_abs (q : ℚ) : |round1 q - q| ≤ 1/20 := by
  unfold round1
  have h := abs_sub_round (10 * q)
  have h2 : ((round (10 * q) : ℤ) : ℚ) / 10 - q
      = (((round (10 * q) : ℤ) : ℚ) - 10 * q) / 10 := by ring
  rw [h2, abs_div, abs_of_nonneg (show (0:ℚ) ≤ 10 by norm_num), abs_sub_comm]
  linarith

/-- A rational whose tenfold is an integer is fixed by rounding to a tenth. -/
theorem round1_fix (q : ℚ) (z : ℤ) (h : (z : ℚ) = 10 * q) : round1 q = q := by
  unfold round1
  rw [← h, round_intCast, h]
  ring

/-- Rounding to a tenth is monotone. -/
theorem round1_mono {p q : ℚ} (h : p ≤ q) : round1 p ≤ round1 q := by
  unfold round1
  have h1 : round (10 * p) ≤ round (10 * q) := by
    rw [round_eq, round_eq]
    exact Int.floor_mono (by linarith)
  have h2 : ((round (10 * p) : ℤ) : ℚ) ≤ ((round (10 * q) : ℤ) : ℚ) := by exact_mod_cast h1
  linarith

/-- The sum of two rounded addends and an integral-tenth addend differs from the
rounded total by at most one tenth: the difference is a multiple of one tenth with
absolute value below three twentieths. -/
theorem round1_sum_bound (a b m : ℚ) (zm : ℤ) (hm : (zm : ℚ) = 10 * m) :
    |round1 (a + b + m) - (round1 a + round1 b + m)| ≤ 1/10 := by
  set D := round1 (a + b + m) - (round1 a + round1 b + m) with hD
  have habs : |D| ≤ 3/20 := by
    have h1 := round1_sub_abs (a + b + m)
    have h2 := round1_sub_abs a
    have h3 := round1_sub_abs b
    have hDeq : D = (round1 (a + b + m) - (a + b + m)) - (round1 a - a) - (round1 b - b) := by
      rw [hD]; ring
    rw [hDeq]
    calc |(round1 (a + b + m) - (a + b + m)) - (round1 a - a) - (round1 b - b)|
        ≤ |(round1 (a + b + m) - (a + b + m)) - (round1 a - a)| + |round1 b - b| := by
          exact abs_sub _ _
      _ ≤ |round1 (a + b + m) - (a + b + m)| + |round1 a - a| + |round1 b - b| := by
          have := abs_sub (round1 (a + b + m) - (a + b + m)) (round1 a - a)
          linarith
      _ ≤ 3/20 := by linarith
  have hint : (10 : ℚ) * D = ((round (10 * (a + b + m)) - round (10 * a) - round (10 * b) - zm :
      ℤ) : ℚ) := by
    rw [hD]
    unfold round1
    push_cast
    rw [hm]
    ring
  set z : ℤ := round (10 * (a + b + m)) - round (10 * a) - round (10 * b) - zm with hz
  have hzabs : |(z : ℚ)| ≤ 3/2 := by
    rw [← hint]
    rw [abs_mul]
    rw [abs_of_nonneg (by norm_num : (0:ℚ) ≤ 10)]
    linarith
  have hzint : |z| ≤ 1 := by
    by_contra hgt
    push_neg at hgt
    have h2 : (2 : ℤ) ≤ |z| := hgt
    have : (2 : ℚ) ≤ |(z : ℚ)| := by
      rw [← Int.cast_abs]
      exact_mod_cast h2
    linarith
  have : |(z : ℚ)| ≤ 1 := by
    rw [← Int.cast_abs]
    exact_mod_cast hzint
  have hDz : D = (z : ℚ) / 10 := by
    rw [← hint]; ring
  rw [hDz, abs_div, abs_of_nonneg (by norm_num : (0:ℚ) ≤ 10)]
  linarith

/-- The power-verb diversity score is non-negative. -/
theorem power_verb_score_nonneg (keys : List String) :
    0 ≤ calculate_power_verb_score keys := by
  unfold calculate_power_verb_score
  have hgen : ∀ (l : List VerbCat) (a : ℚ), 0 ≤ a → (∀ c ∈ l, 0 ≤ c.weight) →
      0 ≤ l.foldl (fun score cat =>
        let count := distinctSuffixes keys cat.name
        if cat.required ≤ count then score + cat.weight
        else if (cat.required : ℚ) * (1/2) ≤ (count : ℚ) then score + cat.weight * (7/10)
        else if 0 < cat.required then
          score + ((count : ℚ) / (cat.required : ℚ)) * cat.weight * (1/2)
        else score) a := by
    intro l
    induction l with
    | nil => intro a ha _; exact ha
    | cons c l ih =>
      intro a ha hw
      have hwc : 0 ≤ c.weight := hw c (by simp)
      refine ih _ ?_ (fun d hd => hw d (by simp [hd]))
      dsimp only
      split_ifs <;> positivity
  refine hgen POWER_VERBS 0 le_rfl ?_
  intro c hc
  fin_cases hc <;> norm_num

/-- The section-balance score lies in `[0, 10]`. -/
theorem balance_range (sl : List (String × ℕ)) :
    0 ≤ calculate_section_balance sl ∧ calculate_section_balance sl ≤ 10 := by
  unfold calculate_section_balance
  dsimp only
  constructor <;> split_ifs <;> first | positivity | norm_num [le_max_iff, max_le_iff]

/-- The professional-language score lies in `[0, 10]`. -/
theorem professional_range (c : Str) :
    0 ≤ check_professional_language c ∧ check_professional_language c ≤ 10 := by
  unfold check_professional_language
  constructor
  · positivity
  · refine max_le (by norm_num) ?_
    have h1 : (0:ℚ) ≤ min 3 ((((pronounWords.map (fun w =>
        countWord (lowerL c) w)).sum : ℕ) : ℚ) / 2) := by positivity
    have h2 : (0:ℚ) ≤ min 2 (((countSub (lowerL c) "was built".data
        + countSub (lowerL c) "were created".data
        + countSub (lowerL c) "is managed".data : ℕ) : ℚ)) := by positivity
    linarith

/-- The fluff deduction is a non-negative integer. -/
theorem check_fluff_nonneg (c : Str) : 0 ≤ check_fluff_words c := by
  unfold check_fluff_words
  rw [foldl_half_points, zero_add]
  refine Int.le_floor.mpr ?_
  push_cast
  positivity

/-- The no-fluff summand lies in `[0, 5]`. -/
theorem no_fluff_range (c : Str) : 0 ≤ no_fluff_part c ∧ no_fluff_part c ≤ 5 := by
  unfold no_fluff_part
  constructor
  · exact le_max_left 0 _
  · refine max_le (by norm_num) ?_
    have := check_fluff_nonneg c
    have h2 : (0:ℚ) ≤ (check_fluff_words c : ℚ) := by exact_mod_cast this
    linarith

/-- The metric-quantification summand lies in `[0, 15]`. -/
theorem metric_part_range (c : Str) : 0 ≤ metric_part c ∧ metric_part c ≤ 15 := by
  unfold metric_part
  dsimp only
  constructor <;> split_ifs with h1 h2 h3 h4
  · norm_num
  · norm_num
  · norm_num
  · refine le_trans (by norm_num) (le_max_left 3 _)
  · norm_num
  · norm_num
  · norm_num
  · norm_num
  · push_neg at h2 h3 h4
    refine max_le (by norm_num) ?_
    have hr : (0:ℚ) ≤ ((bwmOf c : ℕ) : ℚ) / ((bulletsOf c : ℕ) : ℚ) := by positivity
    have hfl : ((Int.floor (((bwmOf c : ℕ) : ℚ) / ((bulletsOf c : ℕ) : ℚ) * 15) : ℤ) : ℚ)
        ≤ ((bwmOf c : ℕ) : ℚ) / ((bulletsOf c : ℕ) : ℚ) * 15 := Int.floor_le _
    nlinarith
  · norm_num

/-- The content score lies in `[0, 50]`. -/
theorem content_score_range (st : AState) (text : Str) :
    0 ≤ (analyze_content st text).1 ∧ (analyze_content st text).1 ≤ 50 := by
  have hmp := metric_part_range text
  have hvb := power_verb_score_nonneg (trackVerbs st.verbKeys text)
  have hbal := balance_range st.sectionLengths
  have hpro := professional_range text
  have hnf := no_fluff_range text
  constructor
  · simp only [analyze_content]
    refine le_min (by norm_num) ?_
    have h1 : (0:ℚ) ≤ min 10 (calculate_power_verb_score (trackVerbs st.verbKeys text)) :=
      le_min (by norm_num) hvb
    have h2 : (0:ℚ) ≤ min 10 (calculate_section_balance st.sectionLengths) :=
      le_min (by norm_num) hbal.1
    have h3 : (0:ℚ) ≤ min 10 (check_professional_language text) :=
      le_min (by norm_num) hpro.1
    linarith [hmp.1, hnf.1]
  · simp only [analyze_content]
    exact min_le_left _ _

/-- The format score lies in `[0, 20]` and its tenfold is an integer. -/
theorem format_props (st : AState) (text : Str) :
    0 ≤ (analyze_format st text).1 ∧ (analyze_format st text).1 ≤ 20
  ∧ ∃ z : ℤ, (z : ℚ) = 10 * (analyze_format st text).1 := by
  unfold analyze_format
  dsimp only
  set k := (atsFound text).length with hk
  set sf := sectionsFoundCount st.sectionsFound with hsf
  set tb := countSub text "\\begin\x7btabular\x7d".data with htb
  have hk0 : (0:ℚ) ≤ (k : ℚ) := Nat.cast_nonneg k
  have hm0 : (0:ℚ) ≤ ((5 - sf : ℕ) : ℚ) := Nat.cast_nonneg _
  have ht0 : (0:ℚ) ≤ ((tb - 1 : ℕ) : ℚ) := Nat.cast_nonneg _
  have hmax10 : ∀ q : ℚ, (10:ℚ) * max 0 q = max 0 (10 * q) := by
    intro q
    rw [mul_max_of_nonneg _ _ (show (0:ℚ) ≤ 10 by norm_num)]
    norm_num
  refine ⟨le_max_left 0 _, ?_, ?_⟩
  · refine max_le (by norm_num) ?_
    split_ifs <;> linarith
  · split_ifs with h1 h2 h3
    · refine ⟨max 0 (200 - 20 * (k : ℤ) - 20 * ((5 - sf : ℕ) : ℤ) - 5 * ((tb - 1 : ℕ) : ℤ)), ?_⟩
      rw [hmax10, Int.cast_max]
      push_cast
      congr 1
      ring
    · refine ⟨max 0 (200 - 20 * (k : ℤ) - 5 * ((tb - 1 : ℕ) : ℤ)), ?_⟩
      rw [hmax10, Int.cast_max]
      push_cast
      congr 1
      ring
    · refine ⟨max 0 (200 - 20 * (k : ℤ) - 20 * ((5 - sf : ℕ) : ℤ)), ?_⟩
      rw [hmax10, Int.cast_max]
      push_cast
      congr 1
      ring
    · refine ⟨max 0 (200 - 20 * (k : ℤ)), ?_⟩
      rw [hmax10, Int.cast_max]
      push_cast
      congr 1
      ring

/-- The technical-depth score lies in `[0, 10]` and its tenfold is an integer. -/
theorem technical_props (text : Str) :
    0 ≤ analyze_technical_depth text ∧ analyze_technical_depth text ≤ 10
  ∧ ∃ z : ℤ, (z : ℚ) = 10 * analyze_technical_depth text := by
  unfold analyze_technical_depth
  dsimp only
  set n := specific_tech.countP (fun t => containsSub text t.data) with hn
  set a := arch_keywords.countP (fun k => containsSub (lowerL text) (lowerL k.data)) with ha
  have hn0 : (0:ℚ) ≤ (n : ℚ) := Nat.cast_nonneg n
  have ha0 : (0:ℚ) ≤ (a : ℚ) := Nat.cast_nonneg a
  have hmin1 : (0:ℚ) ≤ min 5 ((n : ℚ) / 2) := le_min (by norm_num) (by positivity)
  have hmin2 : (0:ℚ) ≤ min 2 ((a : ℚ) / 2) := le_min (by norm_num) (by positivity)
  have hub1 : min (5:ℚ) ((n : ℚ) / 2) ≤ 5 := min_le_left _ _
  have hub2 : min (2:ℚ) ((a : ℚ) / 2) ≤ 2 := min_le_left _ _
  have hmul1 : (10:ℚ) * min 5 ((n : ℚ) / 2) = ((min 50 (5 * (n : ℤ)) : ℤ) : ℚ) := by
    rw [mul_min_of_nonneg _ _ (show (0:ℚ) ≤ 10 by norm_num), Int.cast_min]
    push_cast
    congr 1 <;> ring
  have hmul2 : (10:ℚ) * min 2 ((a : ℚ) / 2) = ((min 20 (5 * (a : ℤ)) : ℤ) : ℚ) := by
    rw [mul_min_of_nonneg _ _ (show (0:ℚ) ≤ 10 by norm_num), Int.cast_min]
    push_cast
    congr 1 <;> ring
  refine ⟨?_, ?_, ?_⟩
  · split_ifs <;> linarith
  · split_ifs <;> linarith
  · split_ifs
    · refine ⟨min 50 (5 * (n : ℤ)) + min 20 (5 * (a : ℤ)) + 30, ?_⟩
      push_cast [← hmul1, ← hmul2]
      ring
    · refine ⟨min 50 (5 * (n : ℤ)) + min 20 (5 * (a : ℤ)), ?_⟩
      push_cast [← hmul1, ← hmul2]
      ring

/-- Every keyword tier has a non-negative weight. -/
theorem tier_weights_nonneg : ∀ t ∈ CRITICAL_KEYWORDS_2025, (0:ℚ) ≤ t.weight := by
  intro t ht
  fin_cases ht <;> norm_num

/-- Per-keyword contributions are non-negative for non-negative weights. -/
theorem kwContribution_nonneg (t : KwTier) (hw : 0 ≤ t.weight) (count : ℕ) :
    0 ≤ kwContribution t count := by
  unfold kwContribution
  split_ifs <;> linarith

/-- A tier with non-negative weight scores non-negatively. -/
theorem tierScore_nonneg (t : KwTier) (hw : 0 ≤ t.weight) (content : Str) :
    0 ≤ tierScore t content := by
  unfold tierScore
  have hgen : ∀ (l : List String) (s : ℚ), 0 ≤ s →
      0 ≤ l.foldl (fun s kw =>
        s + kwContribution t (countSub (lowerL content) (lowerL kw.data))) s := by
    intro l
    induction l with
    | nil => intro s hs; exact hs
    | cons x xs ih =>
      intro s hs
      have hx := kwContribution_nonneg t hw (countSub (lowerL content) (lowerL x.data))
      refine ih _ ?_
      dsimp only
      linarith
  exact hgen t.keywords 0 le_rfl

/-- The keyword score lies in `[2, 20]`. -/
theorem keywords_range (st : AState) (text : Str) :
    2 ≤ (analyze_keywords st text).1 ∧ (analyze_keywords st text).1 ≤ 20 := by
  unfold analyze_keywords
  dsimp only
  have hto : (0:ℚ) ≤ (((CRITICAL_KEYWORDS_2025.map
      (fun t => (t.category, tierScore t text))).filter
        (fun p => ¬ p.1 = "AI/ML")).map Prod.snd).sum := by
    refine List.sum_nonneg ?_
    intro x hx
    obtain ⟨p, hp, hpx⟩ := List.mem_map.mp hx
    obtain ⟨hpm, _⟩ := List.mem_filter.mp hp
    obtain ⟨u, htm, hpt⟩ := List.mem_map.mp hpm
    have hnn := tierScore_nonneg u (tier_weights_nonneg u htm) text
    rw [← hpx, ← hpt]
    exact hnn
  have hmin0 : (0:ℚ) ≤ min 10 ((((CRITICAL_KEYWORDS_2025.map
      (fun t => (t.category, tierScore t text))).filter
        (fun p => ¬ p.1 = "AI/ML")).map Prod.snd).sum / 2) :=
    le_min (by norm_num) (by positivity)
  have hminu : min (10:ℚ) ((((CRITICAL_KEYWORDS_2025.map
      (fun t => (t.category, tierScore t text))).filter
        (fun p => ¬ p.1 = "AI/ML")).map Prod.snd).sum / 2) ≤ 10 := min_le_left _ _
  constructor <;> split_ifs <;> linarith

/-- C1: for every analysis, the reported `ResumeScore` satisfies
`overall = content + format + keywords + technical` to within the 0.1 rounding
granularity of the stored one-decimal fields (the unrounded sub-scores sum exactly
to the unrounded overall), and the stored fields lie in their documented ranges:
overall in [0,100], content in [0,50], format in [0,20], keywords in [0,20],
technical in [0,10]. -/
theorem C1_score_sum_and_ranges (st : AState) (content latexContent : Str) :
    |(analyze_comprehensive st content latexContent).1.score.overall - ((analyze_comprehensive st content latexContent).1.score.content + (analyze_comprehensive st content latexContent).1.score.format + (analyze_comprehensive st content latexContent).1.score.keywords + (analyze_comprehensive st content latexContent).1.score.technical)| ≤ 1/10
  ∧ (0 ≤ (analyze_comprehensive st content latexContent).1.score.overall ∧ (analyze_comprehensive st content latexContent).1.score.overall ≤ 100)
  ∧ (0 ≤ (analyze_comprehensive st content latexContent).1.score.content ∧ (analyze_comprehensive st content latexContent).1.score.content ≤ 50)
  ∧ (0 ≤ (analyze_comprehensive st content latexContent).1.score.format ∧ (analyze_comprehensive st content latexContent).1.score.format ≤ 20)
  ∧ (0 ≤ (analyze_comprehensive st content latexContent).1.score.keywords ∧ (analyze_comprehensive st content latexContent).1.score.keywords ≤ 20)
  ∧ (0 ≤ (analyze_comprehensive st content latexContent).1.score.technical ∧ (analyze_comprehensive st content latexContent).1.score.technical ≤ 10) := by
  have hov : (analyze_comprehensive st content latexContent).1.score.overall = round1 ((analyze_content st (if latexContent.isEmpty then content else latexContent)).1 + (analyze_format (analyze_content st (if latexContent.isEmpty then content else latexContent)).2 (if latexContent.isEmpty then content else latexContent)).1 + (analyze_keywords (analyze_format (analyze_content st (if latexContent.isEmpty then content else latexContent)).2 (if latexContent.isEmpty then content else latexContent)).2 (if latexContent.isEmpty then content else latexContent)).1 + analyze_technical_depth (if latexContent.isEmpty then content else latexContent)) := rfl
  have hco : (analyze_comprehensive st content latexContent).1.score.content = round1 (analyze_content st (if latexContent.isEmpty then content else latexContent)).1 := rfl
  have hfo : (analyze_comprehensive st content latexContent).1.score.format = round1 (analyze_format (analyze_content st (if latexContent.isEmpty then content else latexContent)).2 (if latexContent.isEmpty then content else latexContent)).1 := rfl
  have hko : (analyze_comprehensive st content latexContent).1.score.keywords = round1 (analyze_keywords (analyze_format (analyze_content st (if latexContent.isEmpty then content else latexContent)).2 (if latexContent.isEmpty then content else latexContent)).2 (if latexContent.isEmpty then content else latexContent)).1 := rfl
  have hto : (analyze_comprehensive st content latexContent).1.score.technical = round1 (analyze_technical_depth (if latexContent.isEmpty then content else latexContent)) := rfl
  obtain ⟨hc0, hc50⟩ := content_score_range st (if latexContent.isEmpty then content else latexContent)
  obtain ⟨hf0, hf20, zf, hzf⟩ := format_props (analyze_content st (if latexContent.isEmpty then content else latexContent)).2 (if latexContent.isEmpty then content else latexContent)
  obtain ⟨hk2, hk20⟩ := keywords_range (analyze_format (analyze_content st (if latexContent.isEmpty then content else latexContent)).2 (if latexContent.isEmpty then content else latexContent)).2 (if latexContent.isEmpty then content else latexContent)
  obtain ⟨ht0, ht10, zt, hzt⟩ := technical_props (if latexContent.isEmpty then content else latexContent)
  have hfixf : round1 (analyze_format (analyze_content st (if latexContent.isEmpty then content else latexContent)).2 (if latexContent.isEmpty then content else latexContent)).1 = (analyze_format (analyze_content st (if latexContent.isEmpty then content else latexContent)).2 (if latexContent.isEmpty then content else latexContent)).1 := round1_fix _ zf hzf
  have hfixt : round1 (analyze_technical_depth (if latexContent.isEmpty then content else latexContent)) = analyze_technical_depth (if latexContent.isEmpty then content else latexContent) := round1_fix _ zt hzt
  have hr0 : round1 0 = 0 := round1_fix 0 0 (by norm_num)
  have hr50 : round1 50 = 50 := round1_fix 50 500 (by norm_num)
  have hr100 : round1 100 = 100 := round1_fix 100 1000 (by norm_num)
  have hr20 : round1 20 = 20 := round1_fix 20 200 (by norm_num)
  rw [hov, hco, hfo, hko, hto, hfixf, hfixt]
  refine ⟨?_, ⟨?_, ?_⟩, ⟨?_, ?_⟩, ⟨hf0, hf20⟩, ⟨?_, ?_⟩, ⟨ht0, ht10⟩⟩
  · have hre : (analyze_content st (if latexContent.isEmpty then content else latexContent)).1 + (analyze_format (analyze_content st (if latexContent.isEmpty then content else latexContent)).2 (if latexContent.isEmpty then content else latexContent)).1 + (analyze_keywords (analyze_format (analyze_content st (if latexContent.isEmpty then content else latexContent)).2 (if latexContent.isEmpty then content else latexContent)).2 (if latexContent.isEmpty then content else latexContent)).1 + analyze_technical_depth (if latexContent.isEmpty then content else latexContent)
        = (analyze_content st (if latexContent.isEmpty then content else latexContent)).1 + (analyze_keywords (analyze_format (analyze_content st (if latexContent.isEmpty then content else latexContent)).2 (if latexContent.isEmpty then content else latexContent)).2 (if latexContent.isEmpty then content else latexContent)).1 + ((analyze_format (analyze_content st (if latexContent.isEmpty then content else latexContent)).2 (if latexContent.isEmpty then content else latexContent)).1 + analyze_technical_depth (if latexContent.isEmpty then content else latexContent)) := by ring
    have hre2 : round1 (analyze_content st (if latexContent.isEmpty then content else latexContent)).1 + (analyze_format (analyze_content st (if latexContent.isEmpty then content else latexContent)).2 (if latexContent.isEmpty then content else latexContent)).1 + round1 (analyze_keywords (analyze_format (analyze_content st (if latexContent.isEmpty then content else latexContent)).2 (if latexContent.isEmpty then content else latexContent)).2 (if latexContent.isEmpty then content else latexContent)).1 + analyze_technical_depth (if latexContent.isEmpty then content else latexContent)
        = round1 (analyze_content st (if latexContent.isEmpty then content else latexContent)).1 + round1 (analyze_keywords (analyze_format (analyze_content st (if latexContent.isEmpty then content else latexContent)).2 (if latexContent.isEmpty then content else latexContent)).2 (if latexContent.isEmpty then content else latexContent)).1 + ((analyze_format (analyze_content st (if latexContent.isEmpty then content else latexContent)).2 (if latexContent.isEmpty then content else latexContent)).1 + analyze_technical_depth (if latexContent.isEmpty then content else latexContent)) := by ring
    rw [hre, hre2]
    refine round1_sum_bound (analyze_content st (if latexContent.isEmpty then content else latexContent)).1 (analyze_keywords (analyze_format (analyze_content st (if latexContent.isEmpty then content else latexContent)).2 (if latexContent.isEmpty then content else latexContent)).2 (if latexContent.isEmpty then content else latexContent)).1 ((analyze_format (analyze_content st (if latexContent.isEmpty then content else latexContent)).2 (if latexContent.isEmpty then content else latexContent)).1 + analyze_technical_depth (if latexContent.isEmpty then content else latexContent)) (zf + zt) ?_
    push_cast
    linarith
  · have h1 : (0:ℚ) ≤ (analyze_content st (if latexContent.isEmpty then content else latexContent)).1 + (analyze_format (analyze_content st (if latexContent.isEmpty then content else latexContent)).2 (if latexContent.isEmpty then content else latexContent)).1 + (analyze_keywords (analyze_format (analyze_content st (if latexContent.isEmpty then content else latexContent)).2 (if latexContent.isEmpty then content else latexContent)).2 (if latexContent.isEmpty then content else latexContent)).1 + analyze_technical_depth (if latexContent.isEmpty then content else latexContent) := by linarith
    calc (0:ℚ) = round1 0 := hr0.symm
      _ ≤ _ := round1_mono h1
  · have h1 : (analyze_content st (if latexContent.isEmpty then content else latexContent)).1 + (analyze_format (analyze_content st (if latexContent.isEmpty then content else latexContent)).2 (if latexContent.isEmpty then content else latexContent)).1 + (analyze_keywords (analyze_format (analyze_content st (if latexContent.isEmpty then content else latexContent)).2 (if latexContent.isEmpty then content else latexContent)).2 (if latexContent.isEmpty then content else latexContent)).1 + analyze_technical_depth (if latexContent.isEmpty then content else latexContent) ≤ 100 := by linarith
    calc round1 ((analyze_content st (if latexContent.isEmpty then content else latexContent)).1 + (analyze_format (analyze_content st (if latexContent.isEmpty then content else latexContent)).2 (if latexContent.isEmpty then content else latexContent)).1 + (analyze_keywords (analyze_format (analyze_content st (if latexContent.isEmpty then content else latexContent)).2 (if latexContent.isEmpty then content else latexContent)).2 (if latexContent.isEmpty then content else latexContent)).1 + analyze_technical_depth (if latexContent.isEmpty then content else latexContent)) ≤ round1 100 := round1_mono h1
      _ = 100 := hr100
  · calc (0:ℚ) = round1 0 := hr0.symm
      _ ≤ round1 (analyze_content st (if latexContent.isEmpty then content else latexContent)).1 := round1_mono hc0
  · calc round1 (analyze_content st (if latexContent.isEmpty then content else latexContent)).1 ≤ round1 50 := round1_mono hc50
      _ = 50 := hr50
  · have h1 : (0:ℚ) ≤ (analyze_keywords (analyze_format (analyze_content st (if latexContent.isEmpty then content else latexContent)).2 (if latexContent.isEmpty then content else latexContent)).2 (if latexContent.isEmpty then content else latexContent)).1 := by linarith
    calc (0:ℚ) = round1 0 := hr0.symm
      _ ≤ round1 (analyze_keywords (analyze_format (analyze_content st (if latexContent.isEmpty then content else latexContent)).2 (if latexContent.isEmpty then content else latexContent)).2 (if latexContent.isEmpty then content else latexContent)).1 := round1_mono h1
  · calc round1 (analyze_keywords (analyze_format (analyze_content st (if latexContent.isEmpty then content else latexContent)).2 (if latexContent.isEmpty then content else latexContent)).2 (if latexContent.isEmpty then content else latexContent)).1 ≤ round1 20 := round1_mono hk20
      _ = 20 := hr20
